import Mathlib

/-!
# Verification of the clinical FHIR worklist engine

Shallow embedding of the vital-sign extraction, triage classification,
completeness, narrative composition and bounded-concurrency aggregation
code of the repository (`src/src/App.jsx` and the two unnamed App
variants), together with theorems settling the specification claims.

JavaScript numbers are modelled as `JNum` (a rational value or NaN);
JavaScript strings as `String`; absent/null/undefined fields as
`Option`; the truthiness of a string-or-null value as `truthyS`.
-/

namespace FhirDemo

/-! ## JavaScript value primitives -/

/-- A JavaScript number as it occurs in this code base: either an actual
(finite) numeric value or NaN, which is produced by a failed `Number(...)`
coercion.  Comparisons against NaN are always false. -/
inductive JNum : Type
  | num (q : ℚ)
  | nan
deriving DecidableEq, Repr

/-- JS `x >= c` where `x` may be NaN. -/
def jge : JNum → ℚ → Bool
  | .num a, c => decide (c ≤ a)
  | .nan, _ => false

/-- JS `x <= c` where `x` may be NaN. -/
def jle : JNum → ℚ → Bool
  | .num a, c => decide (a ≤ c)
  | .nan, _ => false

/-- Truthiness of a string-or-nullish value: null/undefined and the empty
string are falsy, every other string is truthy. -/
def truthyS : Option String → Bool
  | none => false
  | some s => !(s == "")

/-- JS `a || b` on string-or-nullish values. -/
def jsOrS (a b : Option String) : Option String :=
  if truthyS a then a else b

/-- The digits value of a non-empty all-digit character list. -/
def digitsVal? (cs : List Char) : Option ℕ :=
  if cs ≠ [] ∧ cs.all Char.isDigit then
    some (cs.foldl (fun a c => a * 10 + (c.toNat - 48)) 0)
  else none

/-- Split a character list at every `'.'` (the shape of
`String.splitOn "."`). -/
def splitDot : List Char → List (List Char)
  | [] => [[]]
  | c :: rest =>
    let r := splitDot rest
    if c = '.' then [] :: r
    else
      match r with
      | h :: t => (c :: h) :: t
      | [] => [[c]]

/-- Parse an unsigned decimal literal (`"72"`, `"37.8"`). -/
def parseUnsigned? (s : String) : Option ℚ :=
  match splitDot s.data with
  | [w] => (digitsVal? w).map (fun n => (n : ℚ))
  | [w, f] =>
    match digitsVal? w, digitsVal? f with
    | some n, some m => some ((n : ℚ) + (m : ℚ) / ((10 : ℚ) ^ f.length))
    | _, _ => none
  | _ => none

/-- Parse an optionally signed decimal literal. -/
def parseSigned? (s : String) : Option ℚ :=
  match s.data with
  | '-' :: rest => (parseUnsigned? (String.mk rest)).map Neg.neg
  | '+' :: rest => parseUnsigned? (String.mk rest)
  | _ => parseUnsigned? s

/-- Whitespace trimming (JS `String#trim`), computed on the character
list. -/
def jsTrim (s : String) : String :=
  String.mk (((s.data.dropWhile Char.isWhitespace).reverse.dropWhile Char.isWhitespace).reverse)

/-- JS `Number(s)` on a string: blank strings coerce to 0, decimal
literals to their value, anything else to NaN (non-decimal numeric forms
such as hex or `"Infinity"` do not occur in the data handled here and are
mapped to NaN as well). -/
def jsNumber (s : String) : JNum :=
  let t := jsTrim s
  if t = "" then .num 0
  else
    match parseSigned? t with
    | some q => .num q
    | none => .nan

/-- Decimal digits of the fractional part `r / d`, with fuel bounding the
number of emitted digits (JS prints at most 17 significant digits). -/
def fracDigits : ℕ → ℕ → ℕ → List Char
  | 0, _, _ => []
  | _, 0, _ => []
  | fuel + 1, r, d =>
    let r10 := r * 10
    Char.ofNat (48 + r10 / d) :: fracDigits fuel (r10 % d) d

/-- Rendering of a rule-set number inside a template string, as JS does
for the short terminating decimals used by the rule sets (`180` → `"180"`,
`37.8` → `"37.8"`). -/
def q2s (q : ℚ) : String :=
  let sign := if q < 0 then "-" else ""
  let n := q.num.natAbs
  let d := q.den
  let ip := n / d
  let r := n % d
  if r = 0 then sign ++ toString ip
  else sign ++ toString ip ++ "." ++ String.mk (fracDigits 17 r d)

/-! ## Triage levels and the classifier (`src/src/App.jsx`, `computeTriage`) -/

/-- The triage levels occurring in the application. -/
inductive TriageLevel : Type
  | GREEN
  | AMBER
  | RED
  | UNKNOWN
deriving DecidableEq, Repr, Fintype

/-- The JS lookup `{ GREEN: 0, AMBER: 1, RED: 2 }[x]` used by `bump`
(undefined, i.e. `none`, for UNKNOWN). -/
def levelOrdJS : TriageLevel → Option ℕ
  | .GREEN => some 0
  | .AMBER => some 1
  | .RED => some 2
  | .UNKNOWN => none

/-- Source `bump` from `computeTriage`: raise the running level to `tgt` exactly
when `order[to] > order[level]`; a comparison against an undefined order
value is false, so the level is kept. -/
def bump (level tgt : TriageLevel) : TriageLevel :=
  match levelOrdJS tgt, levelOrdJS level with
  | some a, some b => if b < a then tgt else level
  | _, _ => level

/-- The configurable rule thresholds (the `rules` state object). -/
structure Rules : Type where
  bpRedSys : ℚ
  bpRedDia : ℚ
  bpAmberSys : ℚ
  bpAmberDia : ℚ
  hrRed : ℚ
  hrAmber : ℚ
  spo2Red : ℚ
  spo2Amber : ℚ
  tempRed : ℚ
  tempAmber : ℚ
  completenessHours : ℚ
deriving DecidableEq, Repr

/-- The initial rule thresholds from the `useState` call. -/
def defaultRules : Rules :=
  { bpRedSys := 180, bpRedDia := 120, bpAmberSys := 140, bpAmberDia := 90
    hrRed := 130, hrAmber := 100, spo2Red := 90, spo2Amber := 94
    tempRed := 39, tempAmber := 37.8, completenessHours := 24 }

/-- The `latest` snapshot handed to `computeTriage`: per vital-kind a JS
number (possibly NaN) or null. -/
structure Latest : Type where
  bpSys : Option JNum
  bpDia : Option JNum
  hr : Option JNum
  temp : Option JNum
  spo2 : Option JNum
deriving DecidableEq, Repr

/-- A snapshot in which no vital-kind is present at all. -/
def emptyLatest : Latest := ⟨none, none, none, none, none⟩

def sysRedReason (rules : Rules) : String :=
  "Systolic blood pressure ≥ " ++ q2s rules.bpRedSys ++ " mmHg."
def sysAmberReason (rules : Rules) : String :=
  "Systolic blood pressure ≥ " ++ q2s rules.bpAmberSys ++ " mmHg."
def diaRedReason (rules : Rules) : String :=
  "Diastolic blood pressure ≥ " ++ q2s rules.bpRedDia ++ " mmHg."
def diaAmberReason (rules : Rules) : String :=
  "Diastolic blood pressure ≥ " ++ q2s rules.bpAmberDia ++ " mmHg."
def hrRedReason (rules : Rules) : String :=
  "Heart rate ≥ " ++ q2s rules.hrRed ++ " bpm (beats per minute)."
def hrAmberReason (rules : Rules) : String :=
  "Heart rate ≥ " ++ q2s rules.hrAmber ++ " bpm (beats per minute)."
def tempRedReason (rules : Rules) : String :=
  "Temperature ≥ " ++ q2s rules.tempRed ++ " °C."
def tempAmberReason (rules : Rules) : String :=
  "Temperature ≥ " ++ q2s rules.tempAmber ++ " °C."
def spo2RedReason (rules : Rules) : String :=
  "Oxygen saturation ≤ " ++ q2s rules.spo2Red ++ "%."
def spo2AmberReason (rules : Rules) : String :=
  "Oxygen saturation ≤ " ++ q2s rules.spo2Amber ++ "%."
def noTriggersReason : String :=
  "No RED/AMBER triggers found in latest vitals window (demo rule)."

/-- One `if (typeof latest?.x === "number") { if red ... else if amber ... }`
block of `computeTriage`: if the vital is present, test the red cutoff
first, then amber; a trigger bumps the level and appends its reason. -/
def vitalCheck (st : TriageLevel × List String) (v : Option JNum)
    (redHit amberHit : JNum → Bool) (redReason amberReason : String) :
    TriageLevel × List String :=
  match v with
  | none => st
  | some x =>
    if redHit x then (bump st.1 .RED, st.2 ++ [redReason])
    else if amberHit x then (bump st.1 .AMBER, st.2 ++ [amberReason])
    else st

structure TriageResult : Type where
  level : TriageLevel
  reasons : List String
deriving DecidableEq, Repr

/-- Source `computeTriage(latest, rules)`: evaluate the vital-kinds in the fixed
order systolic, diastolic, heart rate, temperature, oxygen saturation;
oxygen saturation triggers on `<=`, the rest on `>=`.  If nothing
triggered, emit the single no-triggers reason. -/
def computeTriage (latest : Latest) (rules : Rules) : TriageResult :=
  let s0 : TriageLevel × List String := (.GREEN, [])
  let s1 := vitalCheck s0 latest.bpSys (jge · rules.bpRedSys) (jge · rules.bpAmberSys)
    (sysRedReason rules) (sysAmberReason rules)
  let s2 := vitalCheck s1 latest.bpDia (jge · rules.bpRedDia) (jge · rules.bpAmberDia)
    (diaRedReason rules) (diaAmberReason rules)
  let s3 := vitalCheck s2 latest.hr (jge · rules.hrRed) (jge · rules.hrAmber)
    (hrRedReason rules) (hrAmberReason rules)
  let s4 := vitalCheck s3 latest.temp (jge · rules.tempRed) (jge · rules.tempAmber)
    (tempRedReason rules) (tempAmberReason rules)
  let s5 := vitalCheck s4 latest.spo2 (jle · rules.spo2Red) (jle · rules.spo2Amber)
    (spo2RedReason rules) (spo2AmberReason rules)
  { level := s5.1
    reasons := if s5.2.length = 0 then [noTriggersReason] else s5.2 }

/-- The six successive `(level, reasons)` states reached while
`computeTriage` evaluates the five vital-kinds (before the final
no-triggers defaulting). -/
def triageStates (latest : Latest) (rules : Rules) : List (TriageLevel × List String) :=
  let s0 : TriageLevel × List String := (.GREEN, [])
  let s1 := vitalCheck s0 latest.bpSys (jge · rules.bpRedSys) (jge · rules.bpAmberSys)
    (sysRedReason rules) (sysAmberReason rules)
  let s2 := vitalCheck s1 latest.bpDia (jge · rules.bpRedDia) (jge · rules.bpAmberDia)
    (diaRedReason rules) (diaAmberReason rules)
  let s3 := vitalCheck s2 latest.hr (jge · rules.hrRed) (jge · rules.hrAmber)
    (hrRedReason rules) (hrAmberReason rules)
  let s4 := vitalCheck s3 latest.temp (jge · rules.tempRed) (jge · rules.tempAmber)
    (tempRedReason rules) (tempAmberReason rules)
  let s5 := vitalCheck s4 latest.spo2 (jle · rules.spo2Red) (jle · rules.spo2Amber)
    (spo2RedReason rules) (spo2AmberReason rules)
  [s0, s1, s2, s3, s4, s5]

/-- The level triggered by one vital-kind check, if any: RED if the red
cutoff is crossed, else AMBER if the amber cutoff is crossed. -/
def trig (v : Option JNum) (redHit amberHit : JNum → Bool) : Option TriageLevel :=
  match v with
  | none => none
  | some x =>
    if redHit x then some .RED
    else if amberHit x then some .AMBER
    else none

/-- All levels triggered during one classification run, in evaluation
order. -/
def triggeredLevels (latest : Latest) (rules : Rules) : List TriageLevel :=
  (trig latest.bpSys (jge · rules.bpRedSys) (jge · rules.bpAmberSys)).toList ++
  (trig latest.bpDia (jge · rules.bpRedDia) (jge · rules.bpAmberDia)).toList ++
  (trig latest.hr (jge · rules.hrRed) (jge · rules.hrAmber)).toList ++
  (trig latest.temp (jge · rules.tempRed) (jge · rules.tempAmber)).toList ++
  (trig latest.spo2 (jle · rules.spo2Red) (jle · rules.spo2Amber)).toList

/-- Severity rank of a level, matching the worklist `score` table
(`RED: 3, AMBER: 2, GREEN: 1, UNKNOWN: 0`). -/
def lvlRank : TriageLevel → ℕ
  | .UNKNOWN => 0
  | .GREEN => 1
  | .AMBER => 2
  | .RED => 3

/-- The total severity order GREEN < AMBER < RED (with UNKNOWN below). -/
def lvlLe (a b : TriageLevel) : Prop := lvlRank a ≤ lvlRank b

instance : DecidablePred fun p : TriageLevel × TriageLevel => lvlLe p.1 p.2 :=
  fun _ => Nat.decLe _ _

instance (a b : TriageLevel) : Decidable (lvlLe a b) := Nat.decLe _ _

/-- Maximum of two levels in the severity order. -/
def lvlMax (a b : TriageLevel) : TriageLevel :=
  if lvlRank a < lvlRank b then b else a

/-- The reason segment contributed by a `>=`-direction vital-kind. -/
def segHigh (v : Option JNum) (red amber : ℚ) (redReason amberReason : String) : List String :=
  match v with
  | none => []
  | some x =>
    if jge x red then [redReason]
    else if jge x amber then [amberReason]
    else []

/-- The reason segment contributed by the `<=`-direction vital-kind
(oxygen saturation). -/
def segLow (v : Option JNum) (red amber : ℚ) (redReason amberReason : String) : List String :=
  match v with
  | none => []
  | some x =>
    if jle x red then [redReason]
    else if jle x amber then [amberReason]
    else []

/-! ## FHIR-style record structures (decoded JSON shapes) -/

/-- One entry of `code.coding`. -/
structure Coding : Type where
  code : Option String
  display : Option String
deriving DecidableEq, Repr

/-- A CodeableConcept: a coding list plus optional free text. -/
structure Codeable : Type where
  coding : List Coding
  text : Option String
deriving DecidableEq, Repr

/-- The decoded `valueQuantity.value` field: a JSON number, a string, or
null/absent.  (JSON cannot carry NaN, so a number here is finite.) -/
inductive QuantValue : Type
  | vnum (q : ℚ)
  | vstr (s : String)
  | vnone
deriving DecidableEq, Repr

structure Quantity : Type where
  value : QuantValue
  unit : Option String
  code : Option String
deriving DecidableEq, Repr

/-- One entry of a blood-pressure panel's `component` array. -/
structure Component : Type where
  code : Codeable
  valueQuantity : Option Quantity
deriving DecidableEq, Repr

/-- A decoded FHIR Observation resource, restricted to the fields this
code base reads. -/
structure Obs : Type where
  code : Codeable
  component : Option (List Component)
  valueQuantity : Option Quantity
  valueString : Option String
  valueCodeableConcept : Option Codeable
  effectiveDateTime : Option String
  effectiveInstant : Option String
  issued : Option String
  effectivePeriodStart : Option String
deriving DecidableEq, Repr

/-- An Observation with no value and no timestamp fields, to be extended
per test case. -/
def blankObs : Obs :=
  { code := ⟨[], none⟩, component := none, valueQuantity := none
    valueString := none, valueCodeableConcept := none
    effectiveDateTime := none, effectiveInstant := none
    issued := none, effectivePeriodStart := none }

namespace LOINC

def HR : String := "8867-4"
def TEMP : String := "8310-5"
def SPO2 : String := "59408-5"
def BP_PANEL : String := "55284-4"
def BP_SYS : String := "8480-6"
def BP_DIA : String := "8462-4"

end LOINC

/-- Source `codeHas(obs, loinc)`: some coding entry carries exactly this code. -/
def codeHas (obs : Obs) (loinc : String) : Bool :=
  obs.code.coding.any (fun c => c.code == some loinc)

/-- Source `obsEffectiveDate` from `src/src/App.jsx`:
`effectiveDateTime || effectiveInstant || issued || effectivePeriod?.start || null`. -/
def obsEffectiveDate (o : Obs) : Option String :=
  jsOrS o.effectiveDateTime (jsOrS o.effectiveInstant
    (jsOrS o.issued (jsOrS o.effectivePeriodStart none)))

/-- Source `pickObsDate` from the first unnamed App variant:
`effectiveDateTime || effectivePeriod?.start || issued || null`. -/
def pickObsDate (o : Obs) : Option String :=
  jsOrS o.effectiveDateTime (jsOrS o.effectivePeriodStart (jsOrS o.issued none))

/-- Source `numericValueFromObs`: a numeric `valueQuantity.value` is used as is;
a non-blank string value goes through `Number(...)` (which may yield NaN);
otherwise null. -/
def numericValueFromObs (o : Obs) : Option JNum :=
  match o.valueQuantity with
  | none => none
  | some q =>
    match q.value with
    | .vnum x => some (.num x)
    | .vstr s => if jsTrim s ≠ "" then some (jsNumber s) else none
    | .vnone => none

/-- Source `c?.valueQuantity?.value`, with null/undefined collapsed to `none`
(the nullish cases of the `??` operator). -/
def compQuantValue (c : Component) : Option QuantValue :=
  match c.valueQuantity with
  | none => none
  | some q =>
    match q.value with
    | .vnone => none
    | v => some v

/-- The final `typeof sys === "number" ? sys : null` filter of a panel
component accumulator. -/
def numOfQV : Option QuantValue → Option JNum
  | some (.vnum q) => some (.num q)
  | _ => none

/-- Source `extractBP(obs)`: a recognized panel is decomposed into components;
otherwise a direct systolic or diastolic observation contributes its own
numeric value. -/
def extractBP (obs : Obs) : Option JNum × Option JNum :=
  if codeHas obs LOINC.BP_PANEL && obs.component.isSome then
    let comps := obs.component.getD []
    let sd := comps.foldl
      (fun (sd : Option QuantValue × Option QuantValue) c =>
        let isSys := c.code.coding.any (fun x => x.code == some LOINC.BP_SYS)
        let isDia := c.code.coding.any (fun x => x.code == some LOINC.BP_DIA)
        let s1 := if isSys then
            (match compQuantValue c with
             | some v => some v
             | none => sd.1)
          else sd.1
        let d1 := if isDia then
            (match compQuantValue c with
             | some v => some v
             | none => sd.2)
          else sd.2
        (s1, d1))
      (none, none)
    (numOfQV sd.1, numOfQV sd.2)
  else if codeHas obs LOINC.BP_SYS then (numericValueFromObs obs, none)
  else if codeHas obs LOINC.BP_DIA then (none, numericValueFromObs obs)
  else (none, none)

/-- Source `pickUnit(obs)`: `valueQuantity?.unit || valueQuantity?.code || ""`. -/
def pickUnit (o : Obs) : String :=
  match o.valueQuantity with
  | none => ""
  | some q =>
    match jsOrS q.unit (jsOrS q.code none) with
    | some s => s
    | none => ""

/-- Source `firstCodingDisplay(codeable)`: `coding[0]?.display || text || "—"`. -/
def firstCodingDisplay (codeable : Option Codeable) : String :=
  let c := codeable.bind (fun cc => cc.coding.head?)
  match jsOrS (c.bind Coding.display) (jsOrS (codeable.bind Codeable.text) none) with
  | some s => s
  | none => "—"

/-- Source `missingLabel(k)` from `src/src/App.jsx`. -/
def missingLabel (k : String) : String :=
  if k = "bpSys" then "Blood pressure"
  else if k = "hr" then "Heart rate"
  else if k = "temp" then "Temperature"
  else if k = "spo2" then "Oxygen saturation"
  else k

/-- Dynamic access `latest[k]` for the keys used by completeness. -/
def latestGet (latest : Latest) (k : String) : Option JNum :=
  if k = "bpSys" then latest.bpSys
  else if k = "bpDia" then latest.bpDia
  else if k = "hr" then latest.hr
  else if k = "temp" then latest.temp
  else if k = "spo2" then latest.spo2
  else none

/-- Source `typeof x === "number" && Number.isFinite(x)`: NaN is a number but is
not finite. -/
def isFiniteNum : Option JNum → Bool
  | some (.num _) => true
  | _ => false

/-- The default `wanted` list of `computeCompleteness`. -/
def wantedDefault : List String := ["bpSys", "hr", "temp", "spo2"]

/-- Source `computeCompleteness(latest, wanted)`: the wanted keys whose latest
value is not a finite number, in `wanted` order. -/
def computeCompleteness (latest : Latest) (wanted : List String) : List String :=
  wanted.filter (fun k => !(isFiniteNum (latestGet latest k)))

/-! ## The vitals extraction loop of `fetchVitals` (`src/src/App.jsx`) -/

structure Series : Type where
  bpSys : List JNum
  bpDia : List JNum
  hr : List JNum
  temp : List JNum
  spo2 : List JNum
deriving DecidableEq, Repr

/-- The `when` object: first-seen effective date per vital-kind. -/
structure WhenS : Type where
  bpSys : Option String
  bpDia : Option String
  hr : Option String
  temp : Option String
  spo2 : Option String
deriving DecidableEq, Repr

structure UnitsS : Type where
  hr : String
  temp : String
  spo2 : String
  bp : String
deriving DecidableEq, Repr

structure ExtState : Type where
  series : Series
  whenV : WhenS
  units : UnitsS
deriving DecidableEq, Repr

/-- Source `if (!when.x) when.x = dt`. -/
def whenUpd (cur dt : Option String) : Option String :=
  if truthyS cur then cur else dt

/-- Source `if (!units.x) units.x = pickUnit(o)`. -/
def unitUpd (cur newUnit : String) : String :=
  if cur == "" then newUnit else cur

/-- The blood-pressure block of the `fetchVitals` loop body. -/
def bpStep (st : ExtState) (o : Obs) (dt : Option String) : ExtState :=
  if codeHas o LOINC.BP_PANEL || codeHas o LOINC.BP_SYS || codeHas o LOINC.BP_DIA then
    let bp := extractBP o
    let st1 :=
      match bp.1 with
      | some v =>
        { st with series := { st.series with bpSys := st.series.bpSys ++ [v] }
                  whenV := { st.whenV with bpSys := whenUpd st.whenV.bpSys dt } }
      | none => st
    match bp.2 with
    | some v =>
      { st1 with series := { st1.series with bpDia := st1.series.bpDia ++ [v] }
                 whenV := { st1.whenV with bpDia := whenUpd st1.whenV.bpDia dt } }
    | none => st1
  else st

/-- The heart-rate block of the `fetchVitals` loop body. -/
def hrStep (st : ExtState) (o : Obs) (dt : Option String) : ExtState :=
  if codeHas o LOINC.HR then
    match numericValueFromObs o with
    | some v =>
      { st with series := { st.series with hr := st.series.hr ++ [v] }
                whenV := { st.whenV with hr := whenUpd st.whenV.hr dt }
                units := { st.units with hr := unitUpd st.units.hr (pickUnit o) } }
    | none => st
  else st

/-- The temperature block of the `fetchVitals` loop body. -/
def tempStep (st : ExtState) (o : Obs) (dt : Option String) : ExtState :=
  if codeHas o LOINC.TEMP then
    match numericValueFromObs o with
    | some v =>
      { st with series := { st.series with temp := st.series.temp ++ [v] }
                whenV := { st.whenV with temp := whenUpd st.whenV.temp dt }
                units := { st.units with temp := unitUpd st.units.temp (pickUnit o) } }
    | none => st
  else st

/-- The oxygen-saturation block of the `fetchVitals` loop body. -/
def spo2Step (st : ExtState) (o : Obs) (dt : Option String) : ExtState :=
  if codeHas o LOINC.SPO2 then
    match numericValueFromObs o with
    | some v =>
      { st with series := { st.series with spo2 := st.series.spo2 ++ [v] }
                whenV := { st.whenV with spo2 := whenUpd st.whenV.spo2 dt }
                units := { st.units with spo2 := unitUpd st.units.spo2 (pickUnit o) } }
    | none => st
  else st

/-- One full iteration of the `for (const o of obs)` loop. -/
def extractStep (st : ExtState) (o : Obs) : ExtState :=
  let dt := obsEffectiveDate o
  spo2Step (tempStep (hrStep (bpStep st o dt) o dt) o dt) o dt

def initExtState : ExtState :=
  { series := ⟨[], [], [], [], []⟩
    whenV := ⟨none, none, none, none, none⟩
    units := ⟨"", "", "", "mmHg"⟩ }

/-- The sparkline series (`slice(0, 24).reverse().slice(-12)`). -/
structure Spark : Type where
  bpSys : List JNum
  hr : List JNum
  temp : List JNum
  spo2 : List JNum
deriving DecidableEq, Repr

/-- JS `slice(-k)`: the last `k` elements. -/
def lastN (k : ℕ) (l : List JNum) : List JNum := l.drop (l.length - k)

/-- The value returned by `fetchVitals` once the bundle has been decoded:
pure function of the Observation list the server returned, in server
order. -/
structure VitalsData : Type where
  latest : Latest
  whenV : WhenS
  units : UnitsS
  spark : Spark
  rawCount : ℕ
deriving DecidableEq, Repr

/-- The pure extraction core of `fetchVitals`: fold the loop body over the
records in the order received, then read the latest values off the heads
of the series and build the sparkline slices. -/
def extractVitals (obs : List Obs) : VitalsData :=
  let st := obs.foldl extractStep initExtState
  { latest := { bpSys := st.series.bpSys.head?, bpDia := st.series.bpDia.head?
                hr := st.series.hr.head?, temp := st.series.temp.head?
                spo2 := st.series.spo2.head? }
    whenV := st.whenV
    units := st.units
    spark := { bpSys := lastN 12 (st.series.bpSys.take 24).reverse
               hr := lastN 12 (st.series.hr.take 24).reverse
               temp := lastN 12 (st.series.temp.take 24).reverse
               spo2 := lastN 12 (st.series.spo2.take 24).reverse }
    rawCount := obs.length }

/-- The blood-pressure branch condition of the loop. -/
def bpCond (o : Obs) : Bool :=
  codeHas o LOINC.BP_PANEL || codeHas o LOINC.BP_SYS || codeHas o LOINC.BP_DIA

/-- The systolic values contributed to `series.bpSys`, in input order. -/
def bpSysSeq (obs : List Obs) : List JNum :=
  obs.filterMap (fun o => if bpCond o then (extractBP o).1 else none)

/-- The diastolic values contributed to `series.bpDia`, in input order. -/
def bpDiaSeq (obs : List Obs) : List JNum :=
  obs.filterMap (fun o => if bpCond o then (extractBP o).2 else none)

/-- The heart-rate values contributed to `series.hr`, in input order. -/
def hrSeq (obs : List Obs) : List JNum :=
  obs.filterMap (fun o => if codeHas o LOINC.HR then numericValueFromObs o else none)

/-- The temperature values contributed to `series.temp`, in input order. -/
def tempSeq (obs : List Obs) : List JNum :=
  obs.filterMap (fun o => if codeHas o LOINC.TEMP then numericValueFromObs o else none)

/-- The oxygen-saturation values contributed to `series.spo2`, in input
order. -/
def spo2Seq (obs : List Obs) : List JNum :=
  obs.filterMap (fun o => if codeHas o LOINC.SPO2 then numericValueFromObs o else none)

/-! ## Observation classification of the second unnamed App variant -/

/-- The vital/lab type strings returned by `classifyObservation`. -/
inductive ObsType : Type
  | bp
  | hr
  | temp
  | spo2
  | hgb
  | wt
  | other
deriving DecidableEq, Repr

/-- Source `getObsDisplay(obs)`:
`code?.text || coding[0]?.display || coding[0]?.code || "Observation"`. -/
def getObsDisplay (obs : Obs) : String :=
  match jsOrS obs.code.text (jsOrS (obs.code.coding.head?.bind Coding.display)
      (jsOrS (obs.code.coding.head?.bind Coding.code) none)) with
  | some s => s
  | none => "Observation"

/-- Whether the second list is a leading segment of the first. -/
def startsWithList : List Char → List Char → Bool
  | _, [] => true
  | [], _ :: _ => false
  | a :: as, b :: bs => a == b && startsWithList as bs

/-- Whether `needle` occurs contiguously inside the list. -/
def hasInfixList (needle : List Char) : List Char → Bool
  | [] => startsWithList [] needle
  | a :: t => startsWithList (a :: t) needle || hasInfixList needle t

/-- JS `hay.includes(needle)`. -/
def strIncludes (hay needle : String) : Bool := hasInfixList needle.data hay.data

/-- Source `classifyObservation(obs)`: recognize common vitals/labs via LOINC
codes plus fallback lower-cased substring matching on the display text. -/
def classifyObservation (obs : Obs) : ObsType :=
  let coding := obs.code.coding
  let codes := coding.map (fun c => c.code.getD "")
  let text := (getObsDisplay obs ++ " " ++ ((coding.head?.bind Coding.display).getD "")).toLower
  if codes.contains "85354-9" || codes.contains "55284-4" || strIncludes text "blood pressure" then .bp
  else if codes.contains "8867-4" || strIncludes text "heart rate" || strIncludes text "pulse" then .hr
  else if codes.contains "8310-5" || strIncludes text "temperature" || strIncludes text "temp" then .temp
  else if codes.contains "59408-5" || strIncludes text "oxygen saturation" || strIncludes text "spo2" then .spo2
  else if codes.contains "718-7" || strIncludes text "hemoglobin" || strIncludes text "haemoglobin" then .hgb
  else if codes.contains "29463-7" || codes.contains "3141-9" || strIncludes text "weight" then .wt
  else .other

/-- The `latest` object built by `pickLatestByType`: the first Observation
seen per type. -/
structure LatestByType : Type where
  bp : Option Obs
  hr : Option Obs
  temp : Option Obs
  spo2 : Option Obs
  hgb : Option Obs
  wt : Option Obs
  other : Option Obs
deriving DecidableEq, Repr

/-- Dynamic read `latest[t]`. -/
def lbtGet (m : LatestByType) : ObsType → Option Obs
  | .bp => m.bp
  | .hr => m.hr
  | .temp => m.temp
  | .spo2 => m.spo2
  | .hgb => m.hgb
  | .wt => m.wt
  | .other => m.other

/-- Source `if (!latest[t]) latest[t] = obs` (an object is truthy). -/
def lbtSetIfEmpty (m : LatestByType) (t : ObsType) (o : Obs) : LatestByType :=
  match t with
  | .bp => if m.bp.isSome then m else { m with bp := some o }
  | .hr => if m.hr.isSome then m else { m with hr := some o }
  | .temp => if m.temp.isSome then m else { m with temp := some o }
  | .spo2 => if m.spo2.isSome then m else { m with spo2 := some o }
  | .hgb => if m.hgb.isSome then m else { m with hgb := some o }
  | .wt => if m.wt.isSome then m else { m with wt := some o }
  | .other => if m.other.isSome then m else { m with other := some o }

/-- Source `pickLatestByType(observations)`: iterate in the received order and
keep the first Observation seen per type. -/
def pickLatestByType (observations : List Obs) : LatestByType :=
  observations.foldl (fun latest obs => lbtSetIfEmpty latest (classifyObservation obs) obs)
    ⟨none, none, none, none, none, none, none⟩

/-! ## Environment-dependent date rendering

`new Date(s)` validity and the locale renderings `toLocaleString(...)` are
platform services, not part of this code base; they are passed in as an
explicit environment so the definitions stay pure. -/

structure JsEnv : Type where
  /-- whether `new Date(s)` yields a valid date. -/
  validDate : String → Bool
  /-- Source `Date#toLocaleString()` without options. -/
  renderLocale : String → String
  /-- the `toLocaleString` call of `fmtDateTime` in `src/src/App.jsx`. -/
  renderDateTime : String → String

/-- Source `fmtDateTime(iso)` from `src/src/App.jsx`: em-dash on nullish/blank
input or an invalid date, otherwise the locale rendering. -/
def fmtDateTime (env : JsEnv) (iso : Option String) : String :=
  match iso with
  | none => "—"
  | some s =>
    if s == "" then "—"
    else if env.validDate s then env.renderDateTime s
    else "—"

/-- Source `formatWhen(obs)` from the second unnamed App variant. -/
def formatWhen (env : JsEnv) (o : Obs) : String :=
  match jsOrS o.effectiveDateTime (jsOrS o.effectivePeriodStart (jsOrS o.issued none)) with
  | none => "—"
  | some dt => if env.validDate dt then env.renderLocale dt else dt

/-! ## Patient fields and the narrative composers -/

structure HumanName : Type where
  text : Option String
  given : Option (List String)
  family : Option String
deriving DecidableEq, Repr

structure Patient : Type where
  name : List HumanName
  gender : Option String
  birthDate : Option String
deriving DecidableEq, Repr

/-- Source `pickPatientName(patient)` from the second unnamed App variant. -/
def pickPatientName (patient : Patient) : String :=
  match patient.name.head? with
  | none => "Unnamed patient"
  | some n =>
    if truthyS n.text then n.text.getD ""
    else
      let given := match n.given with
        | some gs => String.intercalate " " gs
        | none => ""
      let family := if truthyS n.family then n.family.getD "" else ""
      let full := jsTrim (given ++ " " ++ family)
      if full == "" then "Unnamed patient" else full

def pickGender (patient : Patient) : String :=
  if truthyS patient.gender then patient.gender.getD "" else "—"

def pickBirthDate (patient : Patient) : String :=
  if truthyS patient.birthDate then patient.birthDate.getD "" else "—"

/-- Stringification of a `valueQuantity.value` inside a template string. -/
def qvToString : QuantValue → String
  | .vnum q => q2s q
  | .vstr s => s
  | .vnone => ""

/-- The component (blood-pressure) branch of `getObsValueText`, returning
its string when both a systolic and a diastolic component value exist. -/
def bpPairText (obs : Obs) : Option String :=
  match obs.component with
  | none => none
  | some comps =>
    if comps.length = 0 then none
    else
      let sys := comps.find? (fun c => c.code.coding.any (fun k => k.code == some "8480-6"))
      let dia := comps.find? (fun c => c.code.coding.any (fun k => k.code == some "8462-4"))
      let sysV := sys.bind compQuantValue
      let diaV := dia.bind compQuantValue
      let unit :=
        match jsOrS ((sys.bind Component.valueQuantity).bind Quantity.unit)
            (jsOrS ((dia.bind Component.valueQuantity).bind Quantity.unit) none) with
        | some u => u
        | none => "mmHg"
      match sysV, diaV with
      | some sv, some dv => some (qvToString sv ++ "/" ++ qvToString dv ++ " " ++ unit)
      | _, _ => none

/-- Source `getObsValueText(obs)` from the second unnamed App variant. -/
def getObsValueText (obs : Obs) : String :=
  match bpPairText obs with
  | some t => t
  | none =>
    let qty :=
      match obs.valueQuantity with
      | none => none
      | some vq =>
        match vq.value with
        | .vnone => none
        | v =>
          let unit := match jsOrS vq.unit (jsOrS vq.code none) with
            | some u => u
            | none => ""
          some (jsTrim (qvToString v ++ (if unit == "" then "" else " " ++ unit)))
    match qty with
    | some t => t
    | none =>
      if truthyS obs.valueString then obs.valueString.getD ""
      else if truthyS (obs.valueCodeableConcept.bind Codeable.text) then
        (obs.valueCodeableConcept.bind Codeable.text).getD ""
      else "—"

/-- Source `Number(latest.x.valueQuantity.value)` in the flag checks of
`aiSummaryFrom`, applied only when the raw value is non-null. -/
def flagNum (o : Option Obs) : Option JNum :=
  (o.bind Obs.valueQuantity).bind (fun q =>
    match q.value with
    | .vnone => none
    | .vnum x => some (.num x)
    | .vstr s => some (jsNumber s))

/-- Source `aiSummaryFrom(patient, latest)` from the second unnamed App variant:
a pure, template-driven narrative of demographics, latest observations
and attention flags.  It reads no clock and takes no timestamp input. -/
def aiSummaryFrom (env : JsEnv) (patient : Patient) (latest : LatestByType) : String :=
  let name := pickPatientName patient
  let gender := pickGender patient
  let dob := pickBirthDate patient
  let headLine := "Patient: " ++ name ++ " (gender: " ++ gender ++ ", date of birth: " ++ dob ++ ")"
  let vitalLine := fun (label : String) (o : Obs) =>
    label ++ ": " ++ getObsValueText o ++ " (" ++ formatWhen env o ++ ")"
  let vitals :=
    (match latest.bp with | some o => [vitalLine "Blood pressure" o] | none => []) ++
    (match latest.hr with | some o => [vitalLine "Heart rate" o] | none => []) ++
    (match latest.temp with | some o => [vitalLine "Temperature" o] | none => []) ++
    (match latest.spo2 with | some o => [vitalLine "Oxygen saturation" o] | none => []) ++
    (match latest.hgb with | some o => [vitalLine "Haemoglobin" o] | none => []) ++
    (match latest.wt with | some o => [vitalLine "Weight" o] | none => [])
  let obsLines :=
    if vitals.length ≠ 0 then
      ["", "Latest observations:"] ++ vitals.map (fun v => "• " ++ v)
    else
      ["", "Latest observations: none returned by the demo server for this patient."]
  let flags :=
    (match flagNum latest.temp with
     | some (.num t) => if (37.8 : ℚ) ≤ t then ["Raised temperature recorded."] else []
     | _ => []) ++
    (match flagNum latest.spo2 with
     | some (.num s) => if s < 94 then ["Low oxygen saturation recorded."] else []
     | _ => []) ++
    (match flagNum latest.hr with
     | some (.num h) => if 100 < h then ["Raised heart rate recorded."] else []
     | _ => [])
  let flagLines :=
    if flags.length ≠ 0 then ["", "Attention flags:"] ++ flags.map (fun f => "• " ++ f)
    else []
  String.intercalate "\n"
    ([headLine] ++ obsLines ++ flagLines ++
      ["", "Summary generated locally for demo purposes (no external AI call)."])

/-- Source `tri.level` interpolated into the note. -/
def levelString : TriageLevel → String
  | .GREEN => "GREEN"
  | .AMBER => "AMBER"
  | .RED => "RED"
  | .UNKNOWN => "UNKNOWN"

/-- The `noteLines` array built by `generateAiSummary` in
`src/src/App.jsx`.  `now` is the value of `new Date().toISOString()` read
from the clock at generation time; every other argument is one of the
claim's inputs. -/
def noteLines (env : JsEnv) (now : String) (name pid : String) (tri : TriageResult)
    (miss : List String) (lastEnc : Option String) (hours : ℚ)
    (conds meds : List (Option Codeable)) : List String :=
  [ "AI clinical assistant note (demo)",
    "Patient: " ++ name ++ " (Patient/" ++ pid ++ ")",
    "Generated: " ++ fmtDateTime env (some now),
    "",
    "Triage: " ++ levelString tri.level ]
  ++ tri.reasons.map (fun r => "- " ++ r)
  ++ [ "",
       "Episode-of-care (Encounter) check (demo):",
       "- Most recent encounter: " ++ fmtDateTime env lastEnc,
       "- Validation: timestamps are within the same care window: DEMO CHECK (upgrade to real episode logic).",
       "",
       "Data completeness check (last " ++ q2s hours ++ " hours):" ]
  ++ (if miss.length = 0 then
        ["- Complete: all key vitals present."]
      else
        ["- Missing: " ++ String.intercalate ", " (miss.map missingLabel) ++ ".",
         "- Action: trigger “data completeness” flag for clinical review."])
  ++ [ "", "Top active problems (Conditions) (demo):" ]
  ++ (if conds.length = 0 then ["- None returned by server."]
      else (conds.take 5).map (fun c => "- " ++ firstCodingDisplay c))
  ++ [ "", "Current medications (MedicationRequest) (demo):" ]
  ++ (if meds.length = 0 then ["- None returned by server."]
      else (meds.take 5).map (fun m => "- " ++ firstCodingDisplay m))
  ++ [ "",
       "AI next actions (demo):",
       "- Validate timestamps align to an episode of care (Encounter).",
       "- Check missing vitals and raise a data completeness flag.",
       "- Surface Conditions + MedicationRequests in one timeline view.",
       "- Provide rule-based triage suggestions and export this note to PDF (Portable Document Format)." ]

/-- The note string produced by `generateAiSummary` (`noteLines.join("\n")`). -/
def generateAiSummaryNote (env : JsEnv) (now : String) (name pid : String)
    (tri : TriageResult) (miss : List String) (lastEnc : Option String) (hours : ℚ)
    (conds meds : List (Option Codeable)) : String :=
  String.intercalate "\n" (noteLines env now name pid tri miss lastEnc hours conds meds)

/-! ## The `mapLimit` worker pool (`src/src/App.jsx`)

`mapLimit(items, limit, mapper)` spawns `limit` asynchronous workers over
a shared index cursor `i`.  JavaScript is single-threaded, so the only
interleaving points are the `await`s: grabbing `const idx = i++` (and
deciding to stop or to start the mapper call) is atomic, and a mapper
call completes atomically by writing `out[idx]`.  The pool is modelled as
a small-step transition system over those two atomic actions; `mapper` is
the value function of the claims. -/

/-- The status of one worker: between iterations, awaiting a mapper call
for an index, or finished. -/
inductive WStatus : Type
  | ready
  | fetching (idx : ℕ)
  | done
deriving DecidableEq, Repr

/-- The pool state: the shared cursor `i`, the workers, and `out`. -/
structure MLState (β : Type) : Type where
  cursor : ℕ
  workers : List WStatus
  out : List (Option β)
deriving Repr

/-- The state in which `mapLimit` starts: cursor 0, `limit` idle workers,
`new Array(items.length)`. -/
def initState (β : Type) (limit n : ℕ) : MLState β :=
  ⟨0, List.replicate limit .ready, List.replicate n none⟩

/-- The two atomic actions of the pool.

* `grab`: a ready worker executes `const idx = i++`; it either starts the
  mapper call for `idx` or, when the cursor has passed the end, breaks
  out of its loop.
* `finish`: a pending mapper call for `idx` completes and its value is
  stored at `out[idx]`, returning the worker to its loop head. -/
inductive MLStep (items : List α) (mapper : α → ℕ → β) :
    MLState β → MLState β → Prop where
  | grab (s : MLState β) (w : ℕ) (hw : s.workers[w]? = some .ready) :
      MLStep items mapper s
        { cursor := s.cursor + 1
          workers := s.workers.set w
            (if s.cursor < items.length then .fetching s.cursor else .done)
          out := s.out }
  | finish (s : MLState β) (w idx : ℕ) (hw : s.workers[w]? = some (.fetching idx))
      (hi : idx < items.length) :
      MLStep items mapper s
        { cursor := s.cursor
          workers := s.workers.set w .ready
          out := s.out.set idx (some (mapper (items.get ⟨idx, hi⟩) idx)) }

/-- States reachable by the pool from its initial state. -/
inductive MLReach (items : List α) (mapper : α → ℕ → β) (limit : ℕ) :
    MLState β → Prop where
  | init : MLReach items mapper limit (initState β limit items.length)
  | step {s s' : MLState β} : MLReach items mapper limit s →
      MLStep items mapper s s' → MLReach items mapper limit s'

/-- The number of mapper calls currently in flight. -/
def inFlight (s : MLState β) : ℕ :=
  s.workers.countP (fun w => match w with | .fetching _ => true | _ => false)

/-- All workers have broken out of their loops: `Promise.all` resolves. -/
def AllDone (s : MLState β) : Prop := ∀ w ∈ s.workers, w = WStatus.done

instance (s : MLState β) : Decidable (AllDone s) :=
  List.decidableBAll (fun w => w = WStatus.done) s.workers

/-- The inductive invariant of the worker pool: the worker and output
array lengths are fixed; an index is being fetched by at most one worker;
a fetched index was handed out by the cursor, lies in range, and its slot
is still empty; every index the cursor has passed is either already
written or currently fetched; written slots hold the mapper value for
their index; slots the cursor has not reached are empty; and a worker can
only have stopped after the cursor passed the end. -/
structure MLInv (items : List α) (mapper : α → ℕ → β) (limit : ℕ)
    (s : MLState β) : Prop where
  wlen : s.workers.length = limit
  olen : s.out.length = items.length
  disj : ∀ w w' idx : ℕ, s.workers[w]? = some (WStatus.fetching idx) →
    s.workers[w']? = some (WStatus.fetching idx) → w = w'
  fetch_bound : ∀ w idx : ℕ, s.workers[w]? = some (WStatus.fetching idx) →
    idx < items.length ∧ idx < s.cursor ∧ s.out[idx]? = some none
  covered : ∀ idx : ℕ, idx < items.length → idx < s.cursor →
    (∃ v, s.out[idx]? = some (some v)) ∨ (∃ w : ℕ, s.workers[w]? = some (WStatus.fetching idx))
  out_val : ∀ (idx : ℕ) (h : idx < items.length) (v : β), s.out[idx]? = some (some v) →
    v = mapper (items.get ⟨idx, h⟩) idx
  out_none_hi : ∀ idx : ℕ, idx < items.length → s.cursor ≤ idx → s.out[idx]? = some none
  done_cursor : ∀ w : ℕ, s.workers[w]? = some WStatus.done → items.length ≤ s.cursor

/-! ## The worklist snapshot pass (`src/src/App.jsx`, worklist `useEffect`)

Each worker of `mapLimit(list, 3, mapper)` runs, per subject id, the same
mapper: skip if a snapshot is already cached, otherwise fetch everything
for that subject and commit either a computed snapshot or, on failure,
the degraded snapshot.  Distinct subjects commit to distinct keys, so the
resulting map is the order-independent pointwise union modelled here by a
left fold; `fetch` abstracts the outcome of the per-subject network
fetches. -/

/-- The fields of an Encounter resource this pass reads. -/
structure Encounter : Type where
  periodStart : Option String
  periodEnd : Option String
  lastUpdated : Option String
deriving DecidableEq, Repr

/-- Everything `Promise.all` delivers for one subject.  Conditions and
medication requests are consumed only by length, so their payload is
irrelevant here. -/
structure Fetched : Type where
  v : VitalsData
  enc : List Encounter
  cond : List Unit
  meds : List Unit
deriving Repr

/-- Source `enc?.[0]?.period?.start || enc?.[0]?.period?.end || enc?.[0]?.meta?.lastUpdated || null`. -/
def lastEncOf (enc : List Encounter) : Option String :=
  jsOrS (enc.head?.bind Encounter.periodStart)
    (jsOrS (enc.head?.bind Encounter.periodEnd)
      (jsOrS (enc.head?.bind Encounter.lastUpdated) none))

structure Counts : Type where
  conditions : ℕ
  meds : ℕ
  encounters : ℕ
deriving DecidableEq, Repr

/-- A worklist snapshot entry.  The degraded entry of the catch branch
carries only the first three fields; the remaining JS fields are then
undefined, modelled as `none`. -/
structure Snap : Type where
  triage : TriageLevel
  triageReasons : List String
  missing : List String
  lastEncounter : Option String
  counts : Option Counts
  vitalsLatest : Option Latest
  vitalsWhen : Option WhenS
  spark : Option Spark
deriving DecidableEq, Repr

/-- The snapshot committed on success. -/
def makeSnap (f : Fetched) (rules : Rules) : Snap :=
  let triage := computeTriage f.v.latest rules
  let missing := computeCompleteness f.v.latest wantedDefault
  { triage := triage.level
    triageReasons := triage.reasons
    missing := missing
    lastEncounter := lastEncOf f.enc
    counts := some ⟨f.cond.length, f.meds.length, f.enc.length⟩
    vitalsLatest := some f.v.latest
    vitalsWhen := some f.v.whenV
    spark := some f.v.spark }

/-- The degraded snapshot committed by the catch branch. -/
def degradedSnap : Snap :=
  { triage := .UNKNOWN
    triageReasons := ["Unable to fetch preview."]
    missing := ["bpSys", "hr", "temp", "spo2"]
    lastEncounter := none
    counts := none
    vitalsLatest := none
    vitalsWhen := none
    spark := none }

/-- What one worker commits for one subject, as a function of that
subject's fetch outcome. -/
def processSubject (r : Except Unit Fetched) (rules : Rules) : Snap :=
  match r with
  | .ok f => makeSnap f rules
  | .error _ => degradedSnap

/-- The whole snapshot pass over the subject list: for each subject, skip
when the cached map already has an entry (the `snapshotByPatient[pid]`
check against the state captured when the effect ran), otherwise commit
`processSubject` of that subject's fetch outcome.  Commits are modelled
by prepending to an association list, matching the overwrite semantics
of `{ ...prev, [pid]: snap }` under `List.lookup`. -/
def runWorklist (subjects : List String) (init : List (String × Snap))
    (fetch : String → Except Unit Fetched) (rules : Rules) : List (String × Snap) :=
  subjects.foldl
    (fun m pid =>
      if (init.lookup pid).isSome then m
      else (pid, processSubject (fetch pid) rules) :: m)
    init

/-! ## Spec-side and characterization definitions

These definitions restate claim or spec wording (or give canonical
characterizations of source behaviour) for comparison against the
definitions above, which were translated from the source. -/

/-- The generic reason segment of one vital-kind check (red cutoff tested
before amber). -/
def segOf (v : Option JNum) (rh ah : JNum → Bool) (rr ra : String) : List String :=
  match v with
  | none => []
  | some x => if rh x then [rr] else if ah x then [ra] else []

/-- Modelled from the claim's words (claim C3): recency timestamp chosen
by the precedence effective-instant, then effective-period-start, then
issued-time; undated otherwise. -/
def claimTimestamp (o : Obs) : Option String :=
  if truthyS o.effectiveInstant then o.effectiveInstant
  else if truthyS o.effectivePeriodStart then o.effectivePeriodStart
  else if truthyS o.issued then o.issued
  else none

/-- The precedence chain actually implemented by `obsEffectiveDate`:
effective-date-time, then effective-instant, then issued, then
effective-period-start. -/
def obsDatePrecedence (o : Obs) : Option String :=
  if truthyS o.effectiveDateTime then o.effectiveDateTime
  else if truthyS o.effectiveInstant then o.effectiveInstant
  else if truthyS o.issued then o.issued
  else if truthyS o.effectivePeriodStart then o.effectivePeriodStart
  else none

/-- The precedence chain actually implemented by `pickObsDate`:
effective-date-time, then effective-period-start, then issued (the
effective-instant field is never consulted). -/
def pickDatePrecedence (o : Obs) : Option String :=
  if truthyS o.effectiveDateTime then o.effectiveDateTime
  else if truthyS o.effectivePeriodStart then o.effectivePeriodStart
  else if truthyS o.issued then o.issued
  else none

/-! ## Concrete test records used by counterexamples and witnesses -/

/-- A heart-rate Observation: value 60, dated 2024. -/
def oHrNew : Obs :=
  { blankObs with
    code := ⟨[⟨some LOINC.HR, some "Heart rate"⟩], none⟩
    valueQuantity := some ⟨.vnum 60, some "beats/minute", none⟩
    effectiveDateTime := some "2024-01-04T10:00:00Z" }

/-- A heart-rate Observation: value 100, dated 2023 (older). -/
def oHrOld : Obs :=
  { blankObs with
    code := ⟨[⟨some LOINC.HR, some "Heart rate"⟩], none⟩
    valueQuantity := some ⟨.vnum 100, some "beats/minute", none⟩
    effectiveDateTime := some "2023-01-04T10:00:00Z" }

/-- A record carrying only an issued time and a period start. -/
def oC3 : Obs :=
  { blankObs with
    issued := some "2020-01-01"
    effectivePeriodStart := some "2023-05-05" }

/-- A heart-rate Observation whose quantity value is the non-numeric
string "abc". -/
def oBadHr : Obs :=
  { blankObs with
    code := ⟨[⟨some LOINC.HR, some "Heart rate"⟩], none⟩
    valueQuantity := some ⟨.vstr "abc", none, none⟩
    effectiveDateTime := some "2024-02-02T08:00:00Z" }

/-- A well-formed temperature Observation. -/
def oGoodTemp : Obs :=
  { blankObs with
    code := ⟨[⟨some LOINC.TEMP, some "Body temperature"⟩], none⟩
    valueQuantity := some ⟨.vnum 37, some "Cel", none⟩
    effectiveDateTime := some "2024-02-01T08:00:00Z" }

/-- A fixed platform environment: every date string valid, rendered as
itself. -/
def envId : JsEnv := ⟨fun _ => true, fun s => s, fun s => s⟩

/-- A successful fetch that returned no resources at all. -/
def emptyFetched : Fetched := ⟨extractVitals [], [], [], []⟩

/-! # Theorems -/

/-! ## Triage classifier lemmas -/

theorem bump_eq_lvlMax :
    ∀ s t : TriageLevel, s ≠ .UNKNOWN → t ≠ .UNKNOWN → bump s t = lvlMax s t := by
  decide

theorem bump_ne_unknown :
    ∀ s t : TriageLevel, s ≠ .UNKNOWN → bump s t ≠ .UNKNOWN := by
  decide

theorem lvlLe_bump : ∀ s t : TriageLevel, lvlLe s (bump s t) := by
  decide

theorem vitalCheck_fst (st : TriageLevel × List String) (v : Option JNum)
    (rh ah : JNum → Bool) (rr ra : String) :
    (vitalCheck st v rh ah rr ra).1 =
      (match trig v rh ah with
       | none => st.1
       | some t => bump st.1 t) := by
  cases v with
  | none => rfl
  | some x =>
    simp only [vitalCheck, trig]
    by_cases h1 : rh x
    · simp [h1]
    · by_cases h2 : ah x <;> simp [h1, h2]

theorem vitalCheck_snd (st : TriageLevel × List String) (v : Option JNum)
    (rh ah : JNum → Bool) (rr ra : String) :
    (vitalCheck st v rh ah rr ra).2 = st.2 ++ segOf v rh ah rr ra := by
  cases v with
  | none => simp [vitalCheck, segOf]
  | some x =>
    simp only [vitalCheck, segOf]
    by_cases h1 : rh x
    · simp [h1]
    · by_cases h2 : ah x <;> simp [h1, h2]

theorem trig_cases (v : Option JNum) (rh ah : JNum → Bool) :
    trig v rh ah = none ∨ trig v rh ah = some .RED ∨ trig v rh ah = some .AMBER := by
  cases v with
  | none => exact Or.inl rfl
  | some x =>
    simp only [trig]
    by_cases h1 : rh x
    · simp [h1]
    · by_cases h2 : ah x <;> simp [h1, h2]

/-- Combined facts about one vital-kind check, threaded along the chain:
the level never becomes UNKNOWN, never decreases, and acts as a running
maximum over the triggered levels. -/
theorem vitalCheck_level_facts (st : TriageLevel × List String) (v : Option JNum)
    (rh ah : JNum → Bool) (rr ra : String) (hst : st.1 ≠ .UNKNOWN) :
    (vitalCheck st v rh ah rr ra).1 ≠ .UNKNOWN ∧
    lvlLe st.1 (vitalCheck st v rh ah rr ra).1 ∧
    (vitalCheck st v rh ah rr ra).1 = (trig v rh ah).toList.foldl lvlMax st.1 := by
  rcases trig_cases v rh ah with h | h | h <;> rw [vitalCheck_fst, h]
  · exact ⟨hst, by simp [lvlLe], rfl⟩
  · refine ⟨bump_ne_unknown _ _ hst, lvlLe_bump _ _, ?_⟩
    show bump st.1 .RED = _
    rw [bump_eq_lvlMax _ _ hst (by decide)]
    rfl
  · refine ⟨bump_ne_unknown _ _ hst, lvlLe_bump _ _, ?_⟩
    show bump st.1 .AMBER = _
    rw [bump_eq_lvlMax _ _ hst (by decide)]
    rfl

/-- The combined facts about one full `computeTriage` run: the final
level is never UNKNOWN, equals the maximum of the triggered levels, and
the running levels form a non-decreasing chain ending at the final
level. -/
theorem triage_final_facts (latest : Latest) (rules : Rules) :
    (computeTriage latest rules).level ≠ .UNKNOWN ∧
    (computeTriage latest rules).level = (triggeredLevels latest rules).foldl lvlMax .GREEN ∧
    List.Chain' lvlLe ((triageStates latest rules).map Prod.fst) ∧
    ((triageStates latest rules).map Prod.fst).getLast? = some (computeTriage latest rules).level := by
  have h1 := vitalCheck_level_facts (.GREEN, ([] : List String)) latest.bpSys
    (jge · rules.bpRedSys) (jge · rules.bpAmberSys) (sysRedReason rules) (sysAmberReason rules)
    (by decide)
  have h2 := vitalCheck_level_facts _ latest.bpDia
    (jge · rules.bpRedDia) (jge · rules.bpAmberDia) (diaRedReason rules) (diaAmberReason rules)
    h1.1
  have h3 := vitalCheck_level_facts _ latest.hr
    (jge · rules.hrRed) (jge · rules.hrAmber) (hrRedReason rules) (hrAmberReason rules)
    h2.1
  have h4 := vitalCheck_level_facts _ latest.temp
    (jge · rules.tempRed) (jge · rules.tempAmber) (tempRedReason rules) (tempAmberReason rules)
    h3.1
  have h5 := vitalCheck_level_facts _ latest.spo2
    (jle · rules.spo2Red) (jle · rules.spo2Amber) (spo2RedReason rules) (spo2AmberReason rules)
    h4.1
  refine ⟨h5.1, ?_, ?_, rfl⟩
  · simp only [triggeredLevels, List.foldl_append]
    dsimp only at h1 h2 h3 h4 h5 ⊢
    rw [← h1.2.2, ← h2.2.2, ← h3.2.2, ← h4.2.2, ← h5.2.2]
    rfl
  · simp only [triageStates, List.map, List.chain'_cons, List.chain'_singleton, and_true]
    dsimp only at h1 h2 h3 h4 h5 ⊢
    exact ⟨h1.2.1, h2.2.1, h3.2.1, h4.2.1, h5.2.1⟩

/-- C5: within every single classification run, the running triage level
is monotonically non-decreasing along the order GREEN < AMBER < RED (no
rule evaluation ever lowers it), the last running level is the returned
level, and the final level equals the maximum of all triggered levels. -/
theorem computeTriage_monotone_max (latest : Latest) (rules : Rules) :
    List.Chain' lvlLe ((triageStates latest rules).map Prod.fst) ∧
    ((triageStates latest rules).map Prod.fst).getLast? = some (computeTriage latest rules).level ∧
    (computeTriage latest rules).level = (triggeredLevels latest rules).foldl lvlMax .GREEN :=
  ⟨(triage_final_facts latest rules).2.2.1, (triage_final_facts latest rules).2.2.2,
    (triage_final_facts latest rules).2.1⟩

/-- C1 (amended): `computeTriage` never returns UNKNOWN; on a snapshot
with zero vitals it returns GREEN with the single no-triggers reason. -/
theorem computeTriage_zero_vitals_green (latest : Latest) (rules : Rules) :
    (computeTriage latest rules).level ≠ .UNKNOWN ∧
    (latest = emptyLatest →
      computeTriage latest rules = ⟨.GREEN, [noTriggersReason]⟩) := by
  refine ⟨(triage_final_facts latest rules).1, ?_⟩
  intro h
  subst h
  rfl

/-- Witness for `computeTriage_zero_vitals_green` at the zero-vitals
snapshot and the default rule set. -/
theorem computeTriage_zero_vitals_green_witness :
    (computeTriage emptyLatest defaultRules).level ≠ .UNKNOWN ∧
    computeTriage emptyLatest defaultRules = ⟨.GREEN, [noTriggersReason]⟩ :=
  ⟨(computeTriage_zero_vitals_green emptyLatest defaultRules).1,
    (computeTriage_zero_vitals_green emptyLatest defaultRules).2 rfl⟩

/-- C1 counterexample: on the zero-vitals snapshot with the default rule
set, `computeTriage` returns GREEN with the no-triggers reason — not
UNKNOWN with the single reason "no vitals available" as claimed. -/
theorem computeTriage_unknown_claim_cex :
    (computeTriage emptyLatest defaultRules).level = .GREEN ∧
    (computeTriage emptyLatest defaultRules).level ≠ .UNKNOWN ∧
    (computeTriage emptyLatest defaultRules).reasons ≠ ["no vitals available"] := by
  refine ⟨rfl, by decide, by decide⟩

/-- C6: the reasons list of `computeTriage` decomposes into per-vital
segments concatenated in the fixed evaluation order systolic, diastolic,
heart rate, temperature, oxygen saturation; each segment tests the red
cutoff before the amber cutoff, with direction `>=` for every vital
except oxygen saturation which uses `<=`, and carries the reason string
naming the vital and the cutoff crossed. -/
theorem computeTriage_reasons_fixed_order (latest : Latest) (rules : Rules) :
    (computeTriage latest rules).reasons =
      (if (segHigh latest.bpSys rules.bpRedSys rules.bpAmberSys (sysRedReason rules) (sysAmberReason rules) ++
           segHigh latest.bpDia rules.bpRedDia rules.bpAmberDia (diaRedReason rules) (diaAmberReason rules) ++
           segHigh latest.hr rules.hrRed rules.hrAmber (hrRedReason rules) (hrAmberReason rules) ++
           segHigh latest.temp rules.tempRed rules.tempAmber (tempRedReason rules) (tempAmberReason rules) ++
           segLow latest.spo2 rules.spo2Red rules.spo2Amber (spo2RedReason rules) (spo2AmberReason rules)).length = 0
       then [noTriggersReason]
       else segHigh latest.bpSys rules.bpRedSys rules.bpAmberSys (sysRedReason rules) (sysAmberReason rules) ++
            segHigh latest.bpDia rules.bpRedDia rules.bpAmberDia (diaRedReason rules) (diaAmberReason rules) ++
            segHigh latest.hr rules.hrRed rules.hrAmber (hrRedReason rules) (hrAmberReason rules) ++
            segHigh latest.temp rules.tempRed rules.tempAmber (tempRedReason rules) (tempAmberReason rules) ++
            segLow latest.spo2 rules.spo2Red rules.spo2Amber (spo2RedReason rules) (spo2AmberReason rules)) := by
  have eh : ∀ (v : Option JNum) (red amber : ℚ) (rr ra : String),
      segHigh v red amber rr ra = segOf v (jge · red) (jge · amber) rr ra := fun _ _ _ _ _ => rfl
  have el : ∀ (v : Option JNum) (red amber : ℚ) (rr ra : String),
      segLow v red amber rr ra = segOf v (jle · red) (jle · amber) rr ra := fun _ _ _ _ _ => rfl
  simp only [computeTriage]
  rw [vitalCheck_snd, vitalCheck_snd, vitalCheck_snd, vitalCheck_snd, vitalCheck_snd]
  rw [eh, eh, eh, eh, el]
  simp [List.append_assoc]

/-! ## Timestamp fallback precedence (C3) -/

/-- C3 (amended): the timestamp helpers implement these precedences:
`obsEffectiveDate` tries effective-date-time, then effective-instant,
then issued, then effective-period-start; `pickObsDate` tries
effective-date-time, then effective-period-start, then issued, and never
consults effective-instant; a record with none of the fields yields null
(no client-side sorting by these dates is performed). -/
theorem timestamp_precedence_actual :
    (∀ o : Obs, obsEffectiveDate o = obsDatePrecedence o) ∧
    (∀ o : Obs, pickObsDate o = pickDatePrecedence o) ∧
    (∀ (o : Obs) (v : Option String),
      pickObsDate { o with effectiveInstant := v } = pickObsDate o) ∧
    (∀ o : Obs, truthyS o.effectiveDateTime = false → truthyS o.effectiveInstant = false →
      truthyS o.issued = false → truthyS o.effectivePeriodStart = false →
      obsEffectiveDate o = none ∧ pickObsDate o = none) := by
  refine ⟨fun o => rfl, fun o => rfl, fun o v => rfl, fun o h1 h2 h3 h4 => ?_⟩
  constructor
  · simp [obsEffectiveDate, jsOrS, h1, h2, h3, h4]
  · simp [pickObsDate, jsOrS, h1, h3, h4]

/-- Witness for `timestamp_precedence_actual`: a record with none of the
four timestamp fields is undated under both helpers. -/
theorem timestamp_precedence_actual_witness :
    obsEffectiveDate blankObs = none ∧ pickObsDate blankObs = none :=
  timestamp_precedence_actual.2.2.2 blankObs rfl rfl rfl rfl

/-- C3 counterexample: on a record carrying only `issued = "2020-01-01"`
and `effectivePeriod.start = "2023-05-05"`, the claimed precedence picks
the period start, but `obsEffectiveDate` returns the issued time (the
two source helpers even disagree with each other on this record). -/
theorem timestamp_precedence_cex :
    claimTimestamp oC3 = some "2023-05-05" ∧
    obsEffectiveDate oC3 = some "2020-01-01" ∧
    pickObsDate oC3 = some "2023-05-05" ∧
    obsEffectiveDate oC3 ≠ claimTimestamp oC3 := by
  exact ⟨rfl, rfl, rfl, by decide⟩

/-! ## Extraction series lemmas (C2, C7) -/

theorem bpStep_series (st : ExtState) (o : Obs) (dt : Option String) :
    (bpStep st o dt).series.bpSys =
      st.series.bpSys ++ (if bpCond o then ((extractBP o).1).toList else []) ∧
    (bpStep st o dt).series.bpDia =
      st.series.bpDia ++ (if bpCond o then ((extractBP o).2).toList else []) ∧
    (bpStep st o dt).series.hr = st.series.hr ∧
    (bpStep st o dt).series.temp = st.series.temp ∧
    (bpStep st o dt).series.spo2 = st.series.spo2 := by
  by_cases h : bpCond o
  · have h' : (codeHas o LOINC.BP_PANEL || codeHas o LOINC.BP_SYS || codeHas o LOINC.BP_DIA) = true := h
    rcases hbp : extractBP o with ⟨s, d⟩
    rcases s with _ | v1 <;> rcases d with _ | v2 <;>
      simp [bpStep, h, h', hbp, Option.toList]
  · have h' : ¬(codeHas o LOINC.BP_PANEL || codeHas o LOINC.BP_SYS || codeHas o LOINC.BP_DIA) = true := h
    simp [bpStep, h, h']

theorem hrStep_series (st : ExtState) (o : Obs) (dt : Option String) :
    (hrStep st o dt).series.hr =
      st.series.hr ++ (if codeHas o LOINC.HR then (numericValueFromObs o).toList else []) ∧
    (hrStep st o dt).series.bpSys = st.series.bpSys ∧
    (hrStep st o dt).series.bpDia = st.series.bpDia ∧
    (hrStep st o dt).series.temp = st.series.temp ∧
    (hrStep st o dt).series.spo2 = st.series.spo2 := by
  by_cases h : codeHas o LOINC.HR
  · rcases hv : numericValueFromObs o with _ | v <;>
      simp [hrStep, h, hv, Option.toList]
  · simp [hrStep, h]

theorem tempStep_series (st : ExtState) (o : Obs) (dt : Option String) :
    (tempStep st o dt).series.temp =
      st.series.temp ++ (if codeHas o LOINC.TEMP then (numericValueFromObs o).toList else []) ∧
    (tempStep st o dt).series.bpSys = st.series.bpSys ∧
    (tempStep st o dt).series.bpDia = st.series.bpDia ∧
    (tempStep st o dt).series.hr = st.series.hr ∧
    (tempStep st o dt).series.spo2 = st.series.spo2 := by
  by_cases h : codeHas o LOINC.TEMP
  · rcases hv : numericValueFromObs o with _ | v <;>
      simp [tempStep, h, hv, Option.toList]
  · simp [tempStep, h]

theorem spo2Step_series (st : ExtState) (o : Obs) (dt : Option String) :
    (spo2Step st o dt).series.spo2 =
      st.series.spo2 ++ (if codeHas o LOINC.SPO2 then (numericValueFromObs o).toList else []) ∧
    (spo2Step st o dt).series.bpSys = st.series.bpSys ∧
    (spo2Step st o dt).series.bpDia = st.series.bpDia ∧
    (spo2Step st o dt).series.hr = st.series.hr ∧
    (spo2Step st o dt).series.temp = st.series.temp := by
  by_cases h : codeHas o LOINC.SPO2
  · rcases hv : numericValueFromObs o with _ | v <;>
      simp [spo2Step, h, hv, Option.toList]
  · simp [spo2Step, h]

/-- One loop iteration appends each record's contribution, if any, at the
end of the matching series. -/
theorem extractStep_series (st : ExtState) (o : Obs) :
    (extractStep st o).series.bpSys =
      st.series.bpSys ++ (if bpCond o then ((extractBP o).1).toList else []) ∧
    (extractStep st o).series.bpDia =
      st.series.bpDia ++ (if bpCond o then ((extractBP o).2).toList else []) ∧
    (extractStep st o).series.hr =
      st.series.hr ++ (if codeHas o LOINC.HR then (numericValueFromObs o).toList else []) ∧
    (extractStep st o).series.temp =
      st.series.temp ++ (if codeHas o LOINC.TEMP then (numericValueFromObs o).toList else []) ∧
    (extractStep st o).series.spo2 =
      st.series.spo2 ++ (if codeHas o LOINC.SPO2 then (numericValueFromObs o).toList else []) := by
  have hbp := bpStep_series st o (obsEffectiveDate o)
  have hhr := hrStep_series (bpStep st o (obsEffectiveDate o)) o (obsEffectiveDate o)
  have htm := tempStep_series (hrStep (bpStep st o (obsEffectiveDate o)) o (obsEffectiveDate o))
    o (obsEffectiveDate o)
  have hsp := spo2Step_series
    (tempStep (hrStep (bpStep st o (obsEffectiveDate o)) o (obsEffectiveDate o)) o (obsEffectiveDate o))
    o (obsEffectiveDate o)
  refine ⟨?_, ?_, ?_, ?_, ?_⟩ <;> simp only [extractStep]
  · rw [hsp.2.1, htm.2.1, hhr.2.1, hbp.1]
  · rw [hsp.2.2.1, htm.2.2.1, hhr.2.2.1, hbp.2.1]
  · rw [hsp.2.2.2.1, htm.2.2.2.1, hhr.1, hbp.2.2.1]
  · rw [hsp.2.2.2.2, htm.1, hhr.2.2.2.1, hbp.2.2.2.1]
  · rw [hsp.1, htm.2.2.2.2, hhr.2.2.2.2, hbp.2.2.2.2]

theorem ite_toList (c : Prop) [Decidable c] (x : Option JNum) :
    (if c then x.toList else []) = (if c then x else none).toList := by
  by_cases h : c <;> simp [h]

theorem filterMap_cons_seg (f : Obs → Option JNum) (o : Obs) (t : List Obs) :
    (f o).toList ++ t.filterMap f = (o :: t).filterMap f := by
  cases h : f o <;> simp [List.filterMap_cons, h, Option.toList]

/-- Folding the loop over a record list appends, per series, exactly the
values contributed by matching records, in input order. -/
theorem foldl_extractStep_series (l : List Obs) (st : ExtState) :
    ((l.foldl extractStep st).series.bpSys = st.series.bpSys ++ bpSysSeq l) ∧
    ((l.foldl extractStep st).series.bpDia = st.series.bpDia ++ bpDiaSeq l) ∧
    ((l.foldl extractStep st).series.hr = st.series.hr ++ hrSeq l) ∧
    ((l.foldl extractStep st).series.temp = st.series.temp ++ tempSeq l) ∧
    ((l.foldl extractStep st).series.spo2 = st.series.spo2 ++ spo2Seq l) := by
  induction l generalizing st with
  | nil => simp [bpSysSeq, bpDiaSeq, hrSeq, tempSeq, spo2Seq]
  | cons o tl ih =>
    have hs := extractStep_series st o
    have iht := ih (extractStep st o)
    refine ⟨?_, ?_, ?_, ?_, ?_⟩ <;> simp only [List.foldl_cons]
    · rw [iht.1, hs.1, List.append_assoc, ite_toList]
      exact congrArg (st.series.bpSys ++ ·)
        (filterMap_cons_seg (fun x => if bpCond x then (extractBP x).1 else none) o tl)
    · rw [iht.2.1, hs.2.1, List.append_assoc, ite_toList]
      exact congrArg (st.series.bpDia ++ ·)
        (filterMap_cons_seg (fun x => if bpCond x then (extractBP x).2 else none) o tl)
    · rw [iht.2.2.1, hs.2.2.1, List.append_assoc, ite_toList]
      exact congrArg (st.series.hr ++ ·)
        (filterMap_cons_seg (fun x => if codeHas x LOINC.HR then numericValueFromObs x else none) o tl)
    · rw [iht.2.2.2.1, hs.2.2.2.1, List.append_assoc, ite_toList]
      exact congrArg (st.series.temp ++ ·)
        (filterMap_cons_seg (fun x => if codeHas x LOINC.TEMP then numericValueFromObs x else none) o tl)
    · rw [iht.2.2.2.2, hs.2.2.2.2, List.append_assoc, ite_toList]
      exact congrArg (st.series.spo2 ++ ·)
        (filterMap_cons_seg (fun x => if codeHas x LOINC.SPO2 then numericValueFromObs x else none) o tl)

theorem lbtGet_set_same (m : LatestByType) (t : ObsType) (o : Obs) :
    lbtGet (lbtSetIfEmpty m t o) t = some ((lbtGet m t).getD o) := by
  cases t
  case bp => cases hm : m.bp <;> simp [lbtGet, lbtSetIfEmpty, hm]
  case hr => cases hm : m.hr <;> simp [lbtGet, lbtSetIfEmpty, hm]
  case temp => cases hm : m.temp <;> simp [lbtGet, lbtSetIfEmpty, hm]
  case spo2 => cases hm : m.spo2 <;> simp [lbtGet, lbtSetIfEmpty, hm]
  case hgb => cases hm : m.hgb <;> simp [lbtGet, lbtSetIfEmpty, hm]
  case wt => cases hm : m.wt <;> simp [lbtGet, lbtSetIfEmpty, hm]
  case other => cases hm : m.other <;> simp [lbtGet, lbtSetIfEmpty, hm]

theorem lbtGet_set_ne (m : LatestByType) (c t : ObsType) (o : Obs) (h : c ≠ t) :
    lbtGet (lbtSetIfEmpty m c o) t = lbtGet m t := by
  cases c <;> cases t <;>
    simp only [lbtGet, lbtSetIfEmpty] <;>
    first
    | exact absurd rfl h
    | (split <;> rfl)

/-- Source `pickLatestByType` keeps, per type, the accumulator's entry if any,
else the first record of the list classified to that type. -/
theorem pickLatest_fold_find (t : ObsType) (l : List Obs) :
    ∀ m : LatestByType,
    lbtGet (l.foldl (fun latest obs => lbtSetIfEmpty latest (classifyObservation obs) obs) m) t =
      (lbtGet m t).elim (l.find? (fun o => classifyObservation o == t)) some := by
  induction l with
  | nil =>
    intro m
    cases h : lbtGet m t <;> simp [h]
  | cons o tl ih =>
    intro m
    rw [List.foldl_cons, ih]
    by_cases hc : classifyObservation o = t
    · subst hc
      rw [lbtGet_set_same]
      cases h : lbtGet m (classifyObservation o) with
      | some x => simp [h, List.find?_cons]
      | none => simp [h, List.find?_cons]
    · rw [lbtGet_set_ne m _ t o hc]
      have hb : (classifyObservation o == t) = false := by
        simp [hc]
      cases h : lbtGet m t <;> simp [h, List.find?_cons, hb]

/-- C2 (amended): per vital-kind, the snapshot's latest value is the
value contributed by the FIRST matching record in the caller-supplied
input order — the extractor performs no internal recency sorting (it
relies on the server's newest-first sort) — and `pickLatestByType`
likewise keeps the first record seen per type. -/
theorem extractVitals_latest_first_match (obs : List Obs) (t : ObsType) :
    (extractVitals obs).latest =
      ⟨(bpSysSeq obs).head?, (bpDiaSeq obs).head?, (hrSeq obs).head?,
       (tempSeq obs).head?, (spo2Seq obs).head?⟩ ∧
    lbtGet (pickLatestByType obs) t = obs.find? (fun o => classifyObservation o == t) := by
  constructor
  · have h := foldl_extractStep_series obs initExtState
    simp only [extractVitals, Latest.mk.injEq]
    exact ⟨by rw [h.1]; rfl, by rw [h.2.1]; rfl, by rw [h.2.2.1]; rfl,
      by rw [h.2.2.2.1]; rfl, by rw [h.2.2.2.2]; rfl⟩
  · have h := pickLatest_fold_find t obs ⟨none, none, none, none, none, none, none⟩
    rw [show lbtGet ⟨none, none, none, none, none, none, none⟩ t = none from by
      cases t <;> rfl] at h
    exact h

/-- C2 counterexample: two heart-rate records, one valued 60 and dated
2024, one valued 100 and dated 2023.  The two input orders are
permutations of each other, yet the snapshots differ: the latest value is
always the first record's, so in the old-record-first order the snapshot
reports 100 although the newest-timestamped matching record carries 60. -/
theorem extract_order_dependent_cex :
    List.Perm [oHrOld, oHrNew] [oHrNew, oHrOld] ∧
    (extractVitals [oHrNew, oHrOld]).latest.hr = some (.num 60) ∧
    (extractVitals [oHrOld, oHrNew]).latest.hr = some (.num 100) ∧
    extractVitals [oHrNew, oHrOld] ≠ extractVitals [oHrOld, oHrNew] := by
  refine ⟨List.Perm.swap oHrNew oHrOld [], by decide, by decide, by decide⟩

/-! ## Worker-pool invariants (C8, C10) -/

theorem mlInv_init (items : List α) (mapper : α → ℕ → β) (limit : ℕ) :
    MLInv items mapper limit (initState β limit items.length) := by
  refine ⟨?_, ?_, ?_, ?_, ?_, ?_, ?_, ?_⟩
  · simp [initState]
  · simp [initState]
  · intro w w' idx hw _
    have h1 := List.eq_of_mem_replicate (List.getElem?_mem hw)
    simp at h1
  · intro w idx hw
    have h1 := List.eq_of_mem_replicate (List.getElem?_mem hw)
    simp at h1
  · intro idx _ hlt
    exact absurd hlt (Nat.not_lt_zero idx)
  · intro idx h v hv
    have h1 := List.eq_of_mem_replicate (List.getElem?_mem hv)
    simp at h1
  · intro idx hlt _
    simp [initState, List.getElem?_replicate, hlt]
  · intro w hw
    have h1 := List.eq_of_mem_replicate (List.getElem?_mem hw)
    simp at h1

theorem mlInv_step {items : List α} {mapper : α → ℕ → β} {limit : ℕ}
    {s s' : MLState β} (hstep : MLStep items mapper s s')
    (hinv : MLInv items mapper limit s) : MLInv items mapper limit s' := by
  obtain ⟨wlen, olen, disj, fetch_bound, covered, out_val, out_none_hi, done_cursor⟩ := hinv
  cases hstep with
  | grab w hw =>
    have hwlt : w < s.workers.length := (List.getElem?_eq_some.mp hw).1
    have hget : ∀ w' : ℕ,
        (s.workers.set w (if s.cursor < items.length then WStatus.fetching s.cursor
          else WStatus.done))[w']? =
        if w = w' then
          some (if s.cursor < items.length then WStatus.fetching s.cursor else WStatus.done)
        else s.workers[w']? := by
      intro w'
      by_cases hww : w = w'
      · subst hww
        simp [List.getElem?_set_eq_of_lt _ hwlt]
      · simp [List.getElem?_set_ne hww, hww]
    refine ⟨by simpa using wlen, olen, ?_, ?_, ?_, out_val, ?_, ?_⟩
    · -- disj
      intro w1 w2 idx h1 h2
      rw [hget w1] at h1
      rw [hget w2] at h2
      by_cases e1 : w = w1 <;> by_cases e2 : w = w2
      · exact e1.symm.trans e2
      · rw [if_pos e1] at h1
        rw [if_neg e2] at h2
        by_cases hc : s.cursor < items.length
        · rw [if_pos hc] at h1
          injection h1 with h1
          cases h1
          exact absurd (fetch_bound w2 s.cursor h2).2.1 (Nat.lt_irrefl s.cursor)
        · rw [if_neg hc] at h1
          injection h1 with h1
          cases h1
      · rw [if_neg e1] at h1
        rw [if_pos e2] at h2
        by_cases hc : s.cursor < items.length
        · rw [if_pos hc] at h2
          injection h2 with h2
          cases h2
          exact absurd (fetch_bound w1 s.cursor h1).2.1 (Nat.lt_irrefl s.cursor)
        · rw [if_neg hc] at h2
          injection h2 with h2
          cases h2
      · rw [if_neg e1] at h1
        rw [if_neg e2] at h2
        exact disj w1 w2 idx h1 h2
    · -- fetch_bound
      intro w1 idx h1
      rw [hget w1] at h1
      by_cases e1 : w = w1
      · rw [if_pos e1] at h1
        by_cases hc : s.cursor < items.length
        · rw [if_pos hc] at h1
          injection h1 with h1
          cases h1
          exact ⟨hc, Nat.lt_succ_self _, out_none_hi s.cursor hc (Nat.le_refl _)⟩
        · rw [if_neg hc] at h1
          injection h1 with h1
          cases h1
      · rw [if_neg e1] at h1
        obtain ⟨ha, hb, hcc⟩ := fetch_bound w1 idx h1
        exact ⟨ha, Nat.lt_succ_of_lt hb, hcc⟩
    · -- covered
      intro idx hn hlt
      rcases Nat.lt_succ_iff_lt_or_eq.mp hlt with hlt' | heq
      · rcases covered idx hn hlt' with ⟨v, hv⟩ | ⟨w'', hw''⟩
        · exact Or.inl ⟨v, hv⟩
        · have hne : w ≠ w'' := by
            intro e
            rw [← e, hw] at hw''
            injection hw'' with hw''
            cases hw''
          refine Or.inr ⟨w'', ?_⟩
          rw [hget w'', if_neg hne]
          exact hw''
      · subst heq
        refine Or.inr ⟨w, ?_⟩
        rw [hget w, if_pos rfl, if_pos hn]
    · -- out_none_hi
      intro idx hn hge
      exact out_none_hi idx hn (Nat.le_of_succ_le hge)
    · -- done_cursor
      intro w1 h1
      rw [hget w1] at h1
      by_cases e1 : w = w1
      · rw [if_pos e1] at h1
        by_cases hc : s.cursor < items.length
        · rw [if_pos hc] at h1
          injection h1 with h1
          cases h1
        · exact Nat.le_succ_of_le (Nat.le_of_not_lt hc)
      · rw [if_neg e1] at h1
        exact Nat.le_succ_of_le (done_cursor w1 h1)
  | finish w idx hw hi =>
    obtain ⟨hin, hic, hslot⟩ := fetch_bound w idx hw
    have hwlt : w < s.workers.length := (List.getElem?_eq_some.mp hw).1
    have hilt : idx < s.out.length := by rw [olen]; exact hi
    have hgetw : ∀ w' : ℕ,
        (s.workers.set w WStatus.ready)[w']? =
          if w = w' then some WStatus.ready else s.workers[w']? := by
      intro w'
      by_cases hww : w = w'
      · subst hww
        simp [List.getElem?_set_eq_of_lt _ hwlt]
      · simp [List.getElem?_set_ne hww, hww]
    have hgeto : ∀ j : ℕ,
        (s.out.set idx (some (mapper (items.get ⟨idx, hi⟩) idx)))[j]? =
          if idx = j then some (some (mapper (items.get ⟨idx, hi⟩) idx)) else s.out[j]? := by
      intro j
      by_cases hij : idx = j
      · subst hij
        simp [List.getElem?_set_eq_of_lt _ hilt]
      · simp [List.getElem?_set_ne hij, hij]
    refine ⟨by simpa using wlen, by simpa using olen, ?_, ?_, ?_, ?_, ?_, ?_⟩
    · -- disj
      intro w1 w2 idx' h1 h2
      rw [hgetw w1] at h1
      rw [hgetw w2] at h2
      by_cases e1 : w = w1
      · rw [if_pos e1] at h1
        injection h1 with h1
        cases h1
      · by_cases e2 : w = w2
        · rw [if_pos e2] at h2
          injection h2 with h2
          cases h2
        · rw [if_neg e1] at h1
          rw [if_neg e2] at h2
          exact disj w1 w2 idx' h1 h2
    · -- fetch_bound
      intro w1 idx' h1
      rw [hgetw w1] at h1
      by_cases e1 : w = w1
      · rw [if_pos e1] at h1
        injection h1 with h1
        cases h1
      · rw [if_neg e1] at h1
        obtain ⟨ha, hb, hcc⟩ := fetch_bound w1 idx' h1
        have hne : idx ≠ idx' := by
          intro e
          exact e1 (disj w w1 idx hw (e ▸ h1))
        refine ⟨ha, hb, ?_⟩
        rw [hgeto idx', if_neg hne]
        exact hcc
    · -- covered
      intro j hjn hjc
      by_cases hji : idx = j
      · subst hji
        exact Or.inl ⟨_, by rw [hgeto idx, if_pos rfl]⟩
      · rcases covered j hjn hjc with ⟨v, hv⟩ | ⟨w'', hw''⟩
        · refine Or.inl ⟨v, ?_⟩
          rw [hgeto j, if_neg hji]
          exact hv
        · have hne : w ≠ w'' := by
            intro e
            rw [← e, hw] at hw''
            injection hw'' with hw''
            injection hw'' with hw''
            exact hji hw''
          refine Or.inr ⟨w'', ?_⟩
          rw [hgetw w'', if_neg hne]
          exact hw''
    · -- out_val
      intro j hjn v' hv'
      rw [hgeto j] at hv'
      by_cases hji : idx = j
      · subst hji
        rw [if_pos rfl] at hv'
        injection hv' with hv'
        injection hv' with hv'
        exact hv'.symm
      · rw [if_neg hji] at hv'
        exact out_val j hjn v' hv'
    · -- out_none_hi
      intro j hjn hcj
      have hne : idx ≠ j := Nat.ne_of_lt (Nat.lt_of_lt_of_le hic hcj)
      rw [hgeto j, if_neg hne]
      exact out_none_hi j hjn hcj
    · -- done_cursor
      intro w1 h1
      rw [hgetw w1] at h1
      by_cases e1 : w = w1
      · rw [if_pos e1] at h1
        injection h1 with h1
        cases h1
      · rw [if_neg e1] at h1
        exact done_cursor w1 h1

theorem mlReach_inv {items : List α} {mapper : α → ℕ → β} {limit : ℕ} {s : MLState β}
    (h : MLReach items mapper limit s) : MLInv items mapper limit s := by
  induction h with
  | init => exact mlInv_init items mapper limit
  | step _ hstep ih => exact mlInv_step hstep ih

/-- C8: in every state the pool can reach, the number of mapper calls in
flight is at most `limit`: each of the `limit` workers awaits at most one
call at a time. -/
theorem mapLimit_inflight_bound (items : List α) (mapper : α → ℕ → β) (limit : ℕ)
    (s : MLState β) (hreach : MLReach items mapper limit s) :
    inFlight s ≤ limit := by
  have h := (mlReach_inv hreach).wlen
  calc inFlight s ≤ s.workers.length := List.countP_le_length _
    _ = limit := h

/-- Witness for `mapLimit_inflight_bound`: the state after one grab of a
one-worker pool over two items. -/
theorem mapLimit_inflight_bound_witness :
    inFlight (⟨1, [WStatus.fetching 0], [none, none]⟩ : MLState ℕ) ≤ 1 := by
  have r0 : MLReach [10, 20] (fun (a i : ℕ) => a + i) 1 (initState ℕ 1 2) := MLReach.init
  have r1 : MLReach [10, 20] (fun (a i : ℕ) => a + i) 1
      (⟨1, [WStatus.fetching 0], [none, none]⟩ : MLState ℕ) :=
    MLReach.step r0 (MLStep.grab (initState ℕ 1 2) 0 rfl)
  exact mapLimit_inflight_bound [10, 20] (fun (a i : ℕ) => a + i) 1 _ r1

/-- C10: the shared cursor hands each index to at most one worker at any
time, and when all workers of a pool with `limit ≥ 1` have stopped, the
output array has exactly the input's length and holds, at each index, the
mapper's value for the item at that index — no index skipped, duplicated
or misplaced. -/
theorem mapLimit_result_correct (items : List α) (mapper : α → ℕ → β) (limit : ℕ)
    (s : MLState β) (hlim : 1 ≤ limit) (hreach : MLReach items mapper limit s) :
    (∀ w w' idx : ℕ, s.workers[w]? = some (WStatus.fetching idx) →
      s.workers[w']? = some (WStatus.fetching idx) → w = w') ∧
    (AllDone s →
      s.out.length = items.length ∧
      ∀ (idx : ℕ) (h : idx < items.length),
        s.out[idx]? = some (some (mapper (items.get ⟨idx, h⟩) idx))) := by
  have inv := mlReach_inv hreach
  refine ⟨inv.disj, fun hdone => ⟨inv.olen, fun idx h => ?_⟩⟩
  have hlen0 : 0 < s.workers.length := by
    rw [inv.wlen]
    exact hlim
  have hw0 : s.workers[0]? = some WStatus.done := by
    rw [List.getElem?_eq_getElem hlen0]
    exact congrArg some (hdone _ (List.getElem_mem hlen0))
  have hcur : items.length ≤ s.cursor := inv.done_cursor 0 hw0
  rcases inv.covered idx h (Nat.lt_of_lt_of_le h hcur) with ⟨v, hv⟩ | ⟨w, hw⟩
  · rw [hv, inv.out_val idx h v hv]
  · have hbad := hdone _ (List.getElem?_mem hw)
    simp at hbad

/-- Witness for `mapLimit_result_correct`: a complete run of a one-worker
pool over the items 10 and 20 with mapper `(a, i) ↦ a + i`, ending with
all workers done and `out = [some 10, some 21]`. -/
theorem mapLimit_result_correct_witness :
    (⟨3, [WStatus.done], [some 10, some 21]⟩ : MLState ℕ).out.length = ([10, 20] : List ℕ).length ∧
    ∀ (idx : ℕ) (h : idx < ([10, 20] : List ℕ).length),
      (⟨3, [WStatus.done], [some 10, some 21]⟩ : MLState ℕ).out[idx]?
        = some (some (([10, 20] : List ℕ).get ⟨idx, h⟩ + idx)) := by
  have r0 : MLReach [10, 20] (fun (a i : ℕ) => a + i) 1 (initState ℕ 1 2) := MLReach.init
  have r1 : MLReach [10, 20] (fun (a i : ℕ) => a + i) 1
      (⟨1, [WStatus.fetching 0], [none, none]⟩ : MLState ℕ) :=
    MLReach.step r0 (MLStep.grab (initState ℕ 1 2) 0 rfl)
  have r2 : MLReach [10, 20] (fun (a i : ℕ) => a + i) 1
      (⟨1, [WStatus.ready], [some 10, none]⟩ : MLState ℕ) :=
    MLReach.step r1 (MLStep.finish ⟨1, [WStatus.fetching 0], [none, none]⟩ 0 0 rfl (by decide))
  have r3 : MLReach [10, 20] (fun (a i : ℕ) => a + i) 1
      (⟨2, [WStatus.fetching 1], [some 10, none]⟩ : MLState ℕ) :=
    MLReach.step r2 (MLStep.grab ⟨1, [WStatus.ready], [some 10, none]⟩ 0 rfl)
  have r4 : MLReach [10, 20] (fun (a i : ℕ) => a + i) 1
      (⟨2, [WStatus.ready], [some 10, some 21]⟩ : MLState ℕ) :=
    MLReach.step r3 (MLStep.finish ⟨2, [WStatus.fetching 1], [some 10, none]⟩ 0 1 rfl (by decide))
  have r5 : MLReach [10, 20] (fun (a i : ℕ) => a + i) 1
      (⟨3, [WStatus.done], [some 10, some 21]⟩ : MLState ℕ) :=
    MLReach.step r4 (MLStep.grab ⟨2, [WStatus.ready], [some 10, some 21]⟩ 0 rfl)
  exact (mapLimit_result_correct [10, 20] (fun (a i : ℕ) => a + i) 1 _ (by decide) r5).2
    (by decide)

/-! ## Narrative composer determinism (C4) -/

/-- C4 (amended): with the generation instant fixed, the composers are
deterministic, and the note of `generateAiSummary` depends on the clock
reading only through its third, "Generated:", line: erasing that line
yields identical line lists for any two clock readings, and two runs with
equal clock readings yield byte-identical notes.  `aiSummaryFrom` takes
no clock input at all. -/
theorem note_deterministic_modulo_timestamp (env : JsEnv) (now now' : String)
    (name pid : String) (tri : TriageResult) (miss : List String)
    (lastEnc : Option String) (hours : ℚ) (conds meds : List (Option Codeable))
    (patient : Patient) (latest : LatestByType) :
    (noteLines env now name pid tri miss lastEnc hours conds meds).eraseIdx 2 =
      (noteLines env now' name pid tri miss lastEnc hours conds meds).eraseIdx 2 ∧
    (now = now' →
      generateAiSummaryNote env now name pid tri miss lastEnc hours conds meds =
        generateAiSummaryNote env now' name pid tri miss lastEnc hours conds meds) ∧
    aiSummaryFrom env patient latest = aiSummaryFrom env patient latest := by
  refine ⟨?_, fun h => by rw [h], rfl⟩
  simp only [noteLines, List.cons_append, List.nil_append, List.eraseIdx]

/-- Witness for `note_deterministic_modulo_timestamp` at concrete
inputs and two different clock readings. -/
theorem note_deterministic_modulo_timestamp_witness :
    (noteLines envId "2025-01-01T00:00:00.000Z" "Alex Smith" "p1" ⟨.GREEN, [noTriggersReason]⟩
        [] none 24 [] []).eraseIdx 2 =
      (noteLines envId "2025-01-02T00:00:00.000Z" "Alex Smith" "p1" ⟨.GREEN, [noTriggersReason]⟩
        [] none 24 [] []).eraseIdx 2 ∧
    generateAiSummaryNote envId "2025-01-01T00:00:00.000Z" "Alex Smith" "p1"
        ⟨.GREEN, [noTriggersReason]⟩ [] none 24 [] [] =
      generateAiSummaryNote envId "2025-01-01T00:00:00.000Z" "Alex Smith" "p1"
        ⟨.GREEN, [noTriggersReason]⟩ [] none 24 [] [] :=
  ⟨(note_deterministic_modulo_timestamp envId "2025-01-01T00:00:00.000Z"
      "2025-01-02T00:00:00.000Z" "Alex Smith" "p1" ⟨.GREEN, [noTriggersReason]⟩ [] none 24 [] []
      ⟨[], none, none⟩ ⟨none, none, none, none, none, none, none⟩).1,
   (note_deterministic_modulo_timestamp envId "2025-01-01T00:00:00.000Z"
      "2025-01-01T00:00:00.000Z" "Alex Smith" "p1" ⟨.GREEN, [noTriggersReason]⟩ [] none 24 [] []
      ⟨[], none, none⟩ ⟨none, none, none, none, none, none, none⟩).2.1 rfl⟩

/-- C4 counterexample: two runs of the note generator with identical
subject, triage, completeness, encounter and rule-set inputs, in the same
fixed environment, but performed at different instants, produce different
note strings — the note embeds the clock reading in its "Generated:"
line, so the composer is not independent of time. -/
theorem note_time_dependent_cex :
    generateAiSummaryNote envId "2025-01-01T00:00:00.000Z" "Alex Smith" "p1"
        ⟨.GREEN, [noTriggersReason]⟩ [] none 24 [] []
      ≠ generateAiSummaryNote envId "2025-01-02T00:00:00.000Z" "Alex Smith" "p1"
        ⟨.GREEN, [noTriggersReason]⟩ [] none 24 [] [] := by
  decide

/-! ## NaN contribution of unparseable quantity values (C7) -/

/-- C7 (code evaluated at the failing input): a heart-rate record whose
quantity value is the non-numeric string "abc" is coerced to NaN, and NaN
passes the `typeof v === "number"` guard — so the record DOES contribute:
the snapshot's latest heart rate becomes NaN and NaN enters the trend
series.  Extraction of the other record still proceeds and no error is
raised, and downstream completeness counts the NaN vital as absent
(`Number.isFinite` excludes it), confirming the exclusion intent that the
guard misses. -/
theorem nan_value_contributes :
    jsNumber "abc" = JNum.nan ∧
    (extractVitals [oBadHr, oGoodTemp]).latest.hr = some JNum.nan ∧
    (extractVitals [oBadHr, oGoodTemp]).spark.hr = [JNum.nan] ∧
    (extractVitals [oBadHr, oGoodTemp]).latest.temp = some (JNum.num 37) ∧
    computeCompleteness (extractVitals [oBadHr, oGoodTemp]).latest wantedDefault
      = ["bpSys", "hr", "spo2"] := by
  refine ⟨by decide, by decide, by decide, by decide, by decide⟩

/-! ## Worklist failure isolation and totality (C9) -/

theorem runWorklist_lookup_of_notmem (fetch : String → Except Unit Fetched) (rules : Rules)
    (init : List (String × Snap)) (pid : String) :
    ∀ (l : List String) (acc : List (String × Snap)), pid ∉ l →
    (l.foldl
      (fun m q => if (init.lookup q).isSome then m
        else (q, processSubject (fetch q) rules) :: m) acc).lookup pid = acc.lookup pid := by
  intro l
  induction l with
  | nil => intro acc _; rfl
  | cons q t ih =>
    intro acc hmem
    have hq : pid ≠ q := fun e => hmem (e ▸ List.mem_cons_self q t)
    have ht : pid ∉ t := fun e => hmem (List.mem_cons_of_mem q e)
    rw [List.foldl_cons, ih _ ht]
    by_cases hc : (init.lookup q).isSome
    · rw [if_pos hc]
    · rw [if_neg hc]
      simp [List.lookup, beq_eq_false_iff_ne.mpr hq]

theorem runWorklist_lookup_of_mem (fetch : String → Except Unit Fetched) (rules : Rules)
    (init : List (String × Snap)) (pid : String) (hinit : init.lookup pid = none) :
    ∀ (l : List String) (acc : List (String × Snap)), pid ∈ l →
    (l.foldl
      (fun m q => if (init.lookup q).isSome then m
        else (q, processSubject (fetch q) rules) :: m) acc).lookup pid
      = some (processSubject (fetch pid) rules) := by
  intro l
  induction l with
  | nil => intro acc h; cases h
  | cons q t ih =>
    intro acc hmem
    rw [List.foldl_cons]
    by_cases hq : pid = q
    · subst hq
      rw [hinit]
      simp only [Option.isSome_none, Bool.false_eq_true, if_false]
      by_cases hmt : pid ∈ t
      · exact ih _ hmt
      · rw [runWorklist_lookup_of_notmem fetch rules init pid t _ hmt]
        simp [List.lookup]
    · have hmt : pid ∈ t := by
        rcases List.mem_cons.mp hmem with h | h
        · exact absurd h hq
        · exact h
      exact ih _ hmt

/-- C9: once the pass completes, every requested subject has an entry:
the entry is exactly what `processSubject` yields for that subject's own
fetch outcome, so a failing subject gets the degraded entry — triage
UNKNOWN, the synthetic "Unable to fetch preview." reason, and all
expected vital-kinds listed absent — and a subject's entry is unchanged
under any other fetch function that agrees on that subject alone, so one
subject's failure cannot affect another subject's entry. -/
theorem worklist_total_and_isolated (subjects : List String)
    (fetch fetch' : String → Except Unit Fetched) (rules : Rules) (pid : String)
    (hmem : pid ∈ subjects) (hagree : fetch pid = fetch' pid) :
    (runWorklist subjects [] fetch rules).lookup pid
        = some (processSubject (fetch pid) rules) ∧
    (runWorklist subjects [] fetch' rules).lookup pid
        = (runWorklist subjects [] fetch rules).lookup pid ∧
    (fetch pid = .error () →
      (runWorklist subjects [] fetch rules).lookup pid = some degradedSnap) ∧
    degradedSnap.triage = .UNKNOWN ∧
    degradedSnap.triageReasons = ["Unable to fetch preview."] ∧
    degradedSnap.missing = wantedDefault := by
  have h1 : (runWorklist subjects [] fetch rules).lookup pid
      = some (processSubject (fetch pid) rules) :=
    runWorklist_lookup_of_mem fetch rules [] pid rfl subjects [] hmem
  have h2 : (runWorklist subjects [] fetch' rules).lookup pid
      = some (processSubject (fetch' pid) rules) :=
    runWorklist_lookup_of_mem fetch' rules [] pid rfl subjects [] hmem
  refine ⟨h1, ?_, ?_, rfl, rfl, rfl⟩
  · rw [h1, h2, hagree]
  · intro herr
    rw [h1, herr]
    rfl

/-- Witness for `worklist_total_and_isolated`: two subjects, the second
one's fetch rejects; its entry is the degraded snapshot and the first
subject is processed independently. -/
theorem worklist_total_and_isolated_witness :
    (runWorklist ["a", "b"] []
        (fun pid => if pid = "b" then .error () else .ok emptyFetched) defaultRules).lookup "b"
      = some degradedSnap ∧
    degradedSnap.triage = .UNKNOWN ∧
    degradedSnap.missing = wantedDefault ∧
    (runWorklist ["a", "b"] []
        (fun pid => if pid = "b" then .error () else .ok emptyFetched) defaultRules).lookup "a"
      = some (processSubject (.ok emptyFetched) defaultRules) := by
  have h := worklist_total_and_isolated ["a", "b"]
    (fun pid => if pid = "b" then .error () else .ok emptyFetched)
    (fun pid => if pid = "b" then .error () else .ok emptyFetched)
    defaultRules "b" (by decide) rfl
  have ha := worklist_total_and_isolated ["a", "b"]
    (fun pid => if pid = "b" then .error () else .ok emptyFetched)
    (fun pid => if pid = "b" then .error () else .ok emptyFetched)
    defaultRules "a" (by decide) rfl
  exact ⟨h.2.2.1 rfl, h.2.2.2.1, h.2.2.2.2.2, ha.1⟩

end FhirDemo
